import Mathlib

/-!
# The RCU-protected book list of `list_rcu_example.c`

A sequential model of the kernel sample module: the list headed by `books`,
the operations `add_book`, `borrow_book`, `is_borrowed_book`, `return_book`,
`delete_book`, `print_book`, and the hand-over of unlinked records to
reclamation (`kfree` after `synchronize_rcu`, or `call_rcu`).

Modelling choices.
* `int` values are `Int`; no operation of the module does arithmetic on them.
* A `char` buffer is a `List Nat` of byte values; the C string it denotes ends
  at its first zero byte.
* The circular list headed by `books` is the `List` of its entries in
  traversal order (`books.next` first).
* A pointer into the list obtained by a traversal is a `Cursor`: the entry
  itself together with the entries before and after it.
* `kzalloc` may fail; whether it does is an input of each allocating
  operation (`ok`).
* Every allocated `struct book` carries the serial number of its allocation
  as its address, so that two records with equal field values are still
  distinct objects.
* The model has one thread of control. The calls `rcu_read_lock`,
  `rcu_read_unlock`, `spin_lock` and `spin_unlock` change none of the list
  state and are left out of the operations, as are the log lines other than
  the record `print_book` prints.
* The order in which each function makes those calls, reads fields of listed
  records and reaches `synchronize_rcu` is modelled separately, as the sequence
  of steps (`Event`) of each path, run over the session depth and the held
  state of `books_lock` (`Ctl`).
-/

namespace ListRcu

/-! ## Data model -/

/-- The data fields of `struct book` (lines 33-40); the link fields `node` and
`rcu` are represented by the position of the record in the state. -/
structure book where
  id : Int
  name : List Nat
  author : List Nat
  borrow : Int
deriving DecidableEq, Repr

/-- An allocated `struct book`: its address and its field values. -/
structure Node where
  addr : Nat
  val : book
deriving DecidableEq, Repr

/-- The state of the module.
* `books`: the entries linked on the list headed by `books`, in traversal order;
* `allocated`: how many `struct book` have been allocated so far (the next address);
* `freed`: the records passed to `kfree` on the synchronous path, oldest first;
* `rcu_cbs`: the records passed to `call_rcu` with `book_reclaim_callback`, oldest first. -/
structure State where
  books : List Node
  allocated : Nat
  freed : List Node
  rcu_cbs : List Node
deriving DecidableEq, Repr

/-- The state after `LIST_HEAD(books)` and before any call. -/
def init : State := { books := [], allocated := 0, freed := [], rcu_cbs := [] }

/-- A position in the list: the entry `b` a traversal stopped at, the entries
it passed before reaching `b`, and the entries after `b`. -/
structure Cursor where
  before : List Node
  b : Node
  after : List Node
deriving DecidableEq, Repr

/-! ## Strings -/

/-- The C string held in a byte buffer: the bytes before the first zero byte (all of them
when the list has no zero byte: the terminator then follows the last one). -/
def cstr (buf : List Nat) : List Nat := buf.takeWhile (fun c => c ≠ 0)

/-- The `n` bytes that `strncpy(dest, src, n)` writes to `dest`: at most `n`
bytes of the string `src`, then zero bytes up to `n`. -/
def strncpy (src : List Nat) (n : Nat) : List Nat :=
  (cstr src).take n ++ List.replicate (n - ((cstr src).take n).length) 0

/-! ## Kernel primitives -/

/-- The contents of a `struct book` fresh from `kzalloc`: all bytes zero. -/
def zeroed : book :=
  { id := 0, name := List.replicate 64 0, author := List.replicate 64 0, borrow := 0 }

/-- The call `kzalloc(sizeof(struct book), ...)`: `none` is the NULL result; otherwise a
zero-filled record at a fresh address. -/
def kzalloc (s : State) (ok : Bool) : Option (Node × State) :=
  if ok then some (⟨s.allocated, zeroed⟩, { s with allocated := s.allocated + 1 }) else none

/-- The call `list_add_rcu(new, head)`: links `new` right after the head, so it is the
first entry a traversal meets. -/
def list_add_rcu (new : Node) (head : List Node) : List Node := new :: head

/-- The call `list_replace_rcu(old, new)`: `new` takes the place of the entry under the
cursor. -/
def list_replace_rcu (old : Cursor) (new : Node) : List Node :=
  old.before ++ new :: old.after

/-- The call `list_del_rcu(entry)`: unlinks the entry under the cursor. -/
def list_del_rcu (entry : Cursor) : List Node := entry.before ++ entry.after

/-- The call `call_rcu(&b->rcu, book_reclaim_callback)`: queues `b` for the callback. -/
def call_rcu (s : State) (b : Node) : State := { s with rcu_cbs := s.rcu_cbs ++ [b] }

/-- The call `synchronize_rcu()`: waits for a grace period; with a single thread of
control it changes nothing. -/
def synchronize_rcu (s : State) : State := s

/-- The call `kfree(b)`. -/
def kfree (s : State) (b : Node) : State := { s with freed := s.freed ++ [b] }

/-- The loops `list_for_each_entry(b, &books, node) { if (b->id == id) ... }`: all five
loops of the module leave the list at the first entry whose `id` matches. The
result is the cursor at that entry, or `none` when the loop runs off the end. -/
def list_for_each_entry (id : Int) : List Node → Option Cursor
  | [] => none
  | b :: rest =>
    if b.val.id = id then some ⟨[], b, rest⟩
    else (list_for_each_entry id rest).map (fun c => { c with before := b :: c.before })

/-! ## The operations of the module -/

/-- Function `add_book` (lines 64-84). -/
def add_book (s : State) (id : Int) (name author : List Nat) (ok : Bool) : State :=
  match kzalloc s ok with
  | none => s
  | some (b, s1) =>
    let b1 : Node := { b with val := { b.val with id := id } }
    let b2 : Node := { b1 with val := { b1.val with name := strncpy name 64 } }
    let b3 : Node := { b2 with val := { b2.val with author := strncpy author 64 } }
    let b4 : Node := { b3 with val := { b3.val with borrow := 0 } }
    { s1 with books := list_add_rcu b4 s1.books }

/-- The tail shared by the three writers (lines 131-136, 209-214, 239-244):
`call_rcu` when `async` is non-zero, otherwise `synchronize_rcu` and `kfree`. -/
def reclaim (s : State) (async : Int) (b : Node) : State :=
  if async ≠ 0 then call_rcu s b else kfree (synchronize_rcu s) b

/-- Function `borrow_book` (lines 86-140): the return value and the state after. -/
def borrow_book (s : State) (id : Int) (async : Int) (ok : Bool) : Int × State :=
  match list_for_each_entry id s.books with
  | none => (-1, s)
  | some old_b =>
    if old_b.b.val.borrow ≠ 0 then (-1, s)
    else
      match kzalloc s ok with
      | none => (-1, s)
      | some (new_b, s1) =>
        let n1 : Node := { new_b with val := old_b.b.val }
        let n2 : Node := { n1 with val := { n1.val with borrow := 1 } }
        let s2 : State := { s1 with books := list_replace_rcu old_b n2 }
        (0, reclaim s2 async old_b.b)

/-- Function `is_borrowed_book` (lines 142-162). -/
def is_borrowed_book (s : State) (id : Int) : Int :=
  match list_for_each_entry id s.books with
  | some c => c.b.val.borrow
  | none => -1

/-- Function `return_book` (lines 164-218): the return value and the state after. -/
def return_book (s : State) (id : Int) (async : Int) (ok : Bool) : Int × State :=
  match list_for_each_entry id s.books with
  | none => (-1, s)
  | some old_b =>
    if old_b.b.val.borrow = 0 then (-1, s)
    else
      match kzalloc s ok with
      | none => (-1, s)
      | some (new_b, s1) =>
        let n1 : Node := { new_b with val := old_b.b.val }
        let n2 : Node := { n1 with val := { n1.val with borrow := 0 } }
        let s2 : State := { s1 with books := list_replace_rcu old_b n2 }
        (0, reclaim s2 async old_b.b)

/-- Function `delete_book` (lines 220-251). -/
def delete_book (s : State) (id : Int) (async : Int) : State :=
  match list_for_each_entry id s.books with
  | some b => reclaim { s with books := list_del_rcu b } async b.b
  | none => s

/-- What `print_book` logs for a record: the arguments of its `pr_info`
(`id`, the `name` and `author` buffers, `borrow`, the address). -/
structure Line where
  id : Int
  name : List Nat
  author : List Nat
  borrow : Int
  addr : Nat
deriving DecidableEq, Repr

/-- Function `print_book` (lines 253-274): the logged record, or `none` for the
"not exist book" branch. -/
def print_book (s : State) (id : Int) : Option Line :=
  match list_for_each_entry id s.books with
  | some c => some ⟨c.b.val.id, c.b.val.name, c.b.val.author, c.b.val.borrow, c.b.addr⟩
  | none => none

/-! ## Sequences of calls -/

/-- One call of a state-changing operation of the module, with its arguments and, for the
allocating operations, the verdict of `kzalloc`. -/
inductive Op where
  | add (id : Int) (name author : List Nat) (ok : Bool)
  | borrow (id : Int) (async : Int) (ok : Bool)
  | giveback (id : Int) (async : Int) (ok : Bool)
  | delete (id : Int) (async : Int)
deriving DecidableEq, Repr

/-- The state after one call. -/
def step (s : State) : Op → State
  | Op.add id name author ok => add_book s id name author ok
  | Op.borrow id async ok => (borrow_book s id async ok).2
  | Op.giveback id async ok => (return_book s id async ok).2
  | Op.delete id async => delete_book s id async

/-- The state after a sequence of calls, first call first. -/
def run (s : State) (ops : List Op) : State := ops.foldl step s

/-- Every `add_book` of the sequence is called with an id that no record on the list has
at the time of the call. -/
def fresh_adds : State → List Op → Bool
  | _, [] => true
  | s, Op.add id name author ok :: rest =>
    s.books.all (fun x => decide (x.val.id ≠ id)) &&
      fresh_adds (add_book s id name author ok) rest
  | s, op :: rest => fresh_adds (step s op) rest

/-! ## Predicates on states -/

/-- The ids of the records on the list are pairwise distinct. -/
def unique_ids (s : State) : Prop := (s.books.map (fun x => x.val.id)).Nodup

instance (s : State) : Decidable (unique_ids s) := by
  unfold unique_ids
  infer_instance

/-- The records handed to reclamation: freed synchronously or queued with `call_rcu`. -/
def handed (s : State) : List Node := s.freed ++ s.rcu_cbs

/-- The addresses of the records on the list followed by those of the records handed to
reclamation. -/
def addrs (s : State) : List Nat := (s.books ++ handed s).map (fun x => x.addr)

/-- Allocation accounting: the addresses of the records on the list and of the records
handed to reclamation are, up to order, the addresses `0, ..., allocated - 1` allocated
so far, each once: no allocated record is lost, none is both on the list and handed
over, none is handed over twice. -/
def accounted (s : State) : Prop := (addrs s).Perm (List.range s.allocated)

instance (s : State) : Decidable (accounted s) := by
  unfold accounted
  infer_instance

/-- Between the states `s` and `t` the record `old` was handed to reclamation, once, in the
way `async` selects, and nothing else was: `old` is not on the list of `t`, nor is its
address; it had not been handed over in `s`; it occurs once among the records handed
over in `t`; it was appended to the `call_rcu` queue when `async` is non-zero and to the
freed records otherwise, the other of the two being unchanged. -/
def hands_over (s t : State) (async : Int) (old : Node) : Prop :=
  old ∉ t.books ∧ old.addr ∉ t.books.map (fun x => x.addr) ∧ old ∉ handed s ∧
  (handed t).count old = 1 ∧
  (if async ≠ 0 then t.rcu_cbs = s.rcu_cbs ++ [old] ∧ t.freed = s.freed
   else t.freed = s.freed ++ [old] ∧ t.rcu_cbs = s.rcu_cbs)

/-- Every record on the list has `borrow` equal to 0 or 1. -/
def flags_boolean (s : State) : Prop := ∀ x ∈ s.books, x.val.borrow = 0 ∨ x.val.borrow = 1

/-! ## Return statements -/

/-- The four `return` statements of `borrow_book` and of `return_book`. -/
inductive Exit where
  | conflict
  | not_found
  | no_memory
  | done
deriving DecidableEq, Repr

/-- The `return` statement by which `borrow_book` leaves: line 103 (`conflict`),
line 113 (`not_found`), line 119 (`no_memory`) or line 139 (`done`). -/
def borrow_book_exit (s : State) (id : Int) (ok : Bool) : Exit :=
  match list_for_each_entry id s.books with
  | none => Exit.not_found
  | some old_b =>
    if old_b.b.val.borrow ≠ 0 then Exit.conflict
    else
      match kzalloc s ok with
      | none => Exit.no_memory
      | some _ => Exit.done

/-- The `return` statement by which `return_book` leaves: line 181 (`conflict`),
line 191 (`not_found`), line 197 (`no_memory`) or line 217 (`done`). -/
def return_book_exit (s : State) (id : Int) (ok : Bool) : Exit :=
  match list_for_each_entry id s.books with
  | none => Exit.not_found
  | some old_b =>
    if old_b.b.val.borrow = 0 then Exit.conflict
    else
      match kzalloc s ok with
      | none => Exit.no_memory
      | some _ => Exit.done

/-! ## Reading a string back -/

/-- The C string read from a fixed-size field without leaving the field: defined when the
field holds a zero byte, and then the bytes before the first one. -/
def field_string (buf : List Nat) : Option (List Nat) :=
  if 0 ∈ buf then some (cstr buf) else none

/-! ## The driver -/

/-- What a run of `test_example` produces: the records logged by its eight `print_book`
calls, the two `is_borrowed_book` values it logs, the values returned by its two
`borrow_book` and two `return_book` calls (which the C code drops), and the state it
leaves. -/
structure Script where
  prints : List (Option Line)
  flags : List Int
  results : List Int
  final : State
deriving DecidableEq, Repr

/-- The bytes of "book1". -/
def book1 : List Nat := [98, 111, 111, 107, 49]

/-- The bytes of "book2". -/
def book2 : List Nat := [98, 111, 111, 107, 50]

/-- The bytes of "jb". -/
def jb : List Nat := [106, 98]

/-- Function `test_example` (lines 276-303). `ok n` is the verdict of the `n`-th `kzalloc`
call of the run, counted from 0 in the order of the allocating calls. -/
def test_example (s : State) (async : Int) (ok : Nat → Bool) : Script :=
  let s1 := add_book s 0 book1 jb (ok 0)
  let s2 := add_book s1 1 book2 jb (ok 1)
  let p1 := print_book s2 0
  let p2 := print_book s2 1
  let f1 := is_borrowed_book s2 0
  let f2 := is_borrowed_book s2 1
  let r1 := borrow_book s2 0 async (ok 2)
  let r2 := borrow_book r1.2 1 async (ok 3)
  let p3 := print_book r2.2 0
  let p4 := print_book r2.2 1
  let r3 := return_book r2.2 0 async (ok 4)
  let r4 := return_book r3.2 1 async (ok 5)
  let p5 := print_book r4.2 0
  let p6 := print_book r4.2 1
  let s7 := delete_book r4.2 0 async
  let s8 := delete_book s7 1 async
  let p7 := print_book s8 0
  let p8 := print_book s8 1
  { prints := [p1, p2, p3, p4, p5, p6, p7, p8], flags := [f1, f2],
    results := [r1.1, r2.1, r3.1, r4.1], final := s8 }

/-- Function `list_rcu_example_init` (lines 305-312): `test_example(0)`, then
`test_example(1)`; the two runs and the returned 0. -/
def list_rcu_example_init (s : State) (ok1 ok2 : Nat → Bool) : Int × Script × Script :=
  let first := test_example s 0 ok1
  let second := test_example first.final 1 ok2
  (0, first, second)

/-! ## The order of the calls inside each function -/

/-- The data fields of `struct book`. -/
inductive Field where
  | id
  | name
  | author
  | borrow
deriving DecidableEq, Repr

/-- What a function does, step by step: the kernel calls it makes and its reads of fields
of records it reached through the list (`read addr field`). -/
inductive Event where
  | rcu_read_lock
  | rcu_read_unlock
  | spin_lock
  | spin_unlock
  | read (addr : Nat) (field : Field)
  | kzalloc
  | list_add_rcu
  | list_replace_rcu
  | list_del_rcu
  | synchronize_rcu
  | kfree (addr : Nat)
  | call_rcu (addr : Nat)
deriving DecidableEq, Repr

/-- The tests `b->id == id` on entries that do not match: one read of `id` each. -/
def scan_reads (l : List Node) : List Event := l.map (fun x => Event.read x.addr Field.id)

/-- The steps of the tail shared by the three writers (lines 131-136, 209-214, 239-244). -/
def reclaim_events (async : Int) (addr : Nat) : List Event :=
  if async ≠ 0 then [Event.call_rcu addr] else [Event.synchronize_rcu, Event.kfree addr]

/-- The steps of `add_book` (lines 64-84), in program order. -/
def add_book_events (ok : Bool) : List Event :=
  if ok then [Event.kzalloc, Event.spin_lock, Event.list_add_rcu, Event.spin_unlock]
  else [Event.kzalloc]

/-- The steps of `borrow_book` (lines 86-140), in program order: the loop test on each
entry, the test of `borrow` on the match, the allocation, the `memcpy` reading the old
record, the replacement under the lock, the end of the session, the reclamation. -/
def borrow_book_events (s : State) (id async : Int) (ok : Bool) : List Event :=
  match list_for_each_entry id s.books with
  | none => [Event.rcu_read_lock] ++ scan_reads s.books ++ [Event.rcu_read_unlock]
  | some old_b =>
    [Event.rcu_read_lock] ++ scan_reads old_b.before ++
    [Event.read old_b.b.addr Field.id, Event.read old_b.b.addr Field.borrow] ++
    (if old_b.b.val.borrow ≠ 0 then [Event.rcu_read_unlock]
     else
      match kzalloc s ok with
      | none => [Event.kzalloc, Event.rcu_read_unlock]
      | some _ =>
        [Event.kzalloc, Event.read old_b.b.addr Field.id, Event.read old_b.b.addr Field.name,
         Event.read old_b.b.addr Field.author, Event.read old_b.b.addr Field.borrow,
         Event.spin_lock, Event.list_replace_rcu, Event.spin_unlock,
         Event.rcu_read_unlock] ++ reclaim_events async old_b.b.addr)

/-- The steps of `is_borrowed_book` (lines 142-162), in program order: on the match,
`rcu_read_unlock()` (line 154) comes before the read of `b->borrow` (line 155). -/
def is_borrowed_book_events (s : State) (id : Int) : List Event :=
  match list_for_each_entry id s.books with
  | some c =>
    [Event.rcu_read_lock] ++ scan_reads c.before ++
    [Event.read c.b.addr Field.id, Event.rcu_read_unlock, Event.read c.b.addr Field.borrow]
  | none => [Event.rcu_read_lock] ++ scan_reads s.books ++ [Event.rcu_read_unlock]

/-- The steps of `return_book` (lines 164-218), in program order. -/
def return_book_events (s : State) (id async : Int) (ok : Bool) : List Event :=
  match list_for_each_entry id s.books with
  | none => [Event.rcu_read_lock] ++ scan_reads s.books ++ [Event.rcu_read_unlock]
  | some old_b =>
    [Event.rcu_read_lock] ++ scan_reads old_b.before ++
    [Event.read old_b.b.addr Field.id, Event.read old_b.b.addr Field.borrow] ++
    (if old_b.b.val.borrow = 0 then [Event.rcu_read_unlock]
     else
      match kzalloc s ok with
      | none => [Event.kzalloc, Event.rcu_read_unlock]
      | some _ =>
        [Event.kzalloc, Event.read old_b.b.addr Field.id, Event.read old_b.b.addr Field.name,
         Event.read old_b.b.addr Field.author, Event.read old_b.b.addr Field.borrow,
         Event.spin_lock, Event.list_replace_rcu, Event.spin_unlock,
         Event.rcu_read_unlock] ++ reclaim_events async old_b.b.addr)

/-- The steps of `delete_book` (lines 220-251), in program order. -/
def delete_book_events (s : State) (id async : Int) : List Event :=
  match list_for_each_entry id s.books with
  | some b =>
    [Event.spin_lock] ++ scan_reads b.before ++
    [Event.read b.b.addr Field.id, Event.list_del_rcu, Event.spin_unlock] ++
    reclaim_events async b.b.addr
  | none => [Event.spin_lock] ++ scan_reads s.books ++ [Event.spin_unlock]

/-- The steps of `print_book` (lines 253-274), in program order: on the match the four
fields are read for `pr_info` (lines 265-266) before `rcu_read_unlock()` (line 267). -/
def print_book_events (s : State) (id : Int) : List Event :=
  match list_for_each_entry id s.books with
  | some c =>
    [Event.rcu_read_lock] ++ scan_reads c.before ++
    [Event.read c.b.addr Field.id, Event.read c.b.addr Field.id,
     Event.read c.b.addr Field.name, Event.read c.b.addr Field.author,
     Event.read c.b.addr Field.borrow, Event.rcu_read_unlock]
  | none => [Event.rcu_read_lock] ++ scan_reads s.books ++ [Event.rcu_read_unlock]

/-- The reader-session nesting depth of the running thread and whether `books_lock` is
held. -/
structure Ctl where
  depth : Nat
  held : Bool
deriving DecidableEq, Repr

/-- One step on the session depth and the lock. `none`: the thread does not get past the
step (`spin_lock` on the lock it already holds never returns; an `rcu_read_unlock` with
no session open and a `spin_unlock` of a released lock have no matching call). -/
def exec (c : Ctl) : Event → Option Ctl
  | Event.rcu_read_lock => some { c with depth := c.depth + 1 }
  | Event.rcu_read_unlock => if c.depth = 0 then none else some { c with depth := c.depth - 1 }
  | Event.spin_lock => if c.held then none else some { c with held := true }
  | Event.spin_unlock => if c.held then some { c with held := false } else none
  | _ => some c

/-- The session depth and the lock after a sequence of steps, when the thread gets
through all of them. -/
def exec_all : Ctl → List Event → Option Ctl
  | c, [] => some c
  | c, e :: rest =>
    match exec c e with
    | some c1 => exec_all c1 rest
    | none => none

/-- Every `synchronize_rcu()` of the sequence is reached with the session depth equal to
`entry` (the depth the function was entered with) and with `books_lock` released. -/
def sync_waits_ok (entry : Nat) : Ctl → List Event → Bool
  | _, [] => true
  | c, e :: rest =>
    (if e = Event.synchronize_rcu then decide (c.depth = entry) && !c.held else true) &&
    (match exec c e with
     | some c1 => sync_waits_ok entry c1 rest
     | none => true)

/-- Every field read of the sequence happens inside a session opened by the sequence
itself: `open_sessions` counts the `rcu_read_lock` calls of the sequence not yet matched by
an `rcu_read_unlock`. -/
def reads_in_session : Nat → List Event → Bool
  | _, [] => true
  | open_sessions, Event.rcu_read_lock :: rest => reads_in_session (open_sessions + 1) rest
  | open_sessions, Event.rcu_read_unlock :: rest => reads_in_session (open_sessions - 1) rest
  | open_sessions, Event.read _ _ :: rest =>
    decide (0 < open_sessions) && reads_in_session open_sessions rest
  | open_sessions, _ :: rest => reads_in_session open_sessions rest

/-- A sequence of steps is balanced: entered at any session depth with `books_lock`
released, the thread gets through all of it and leaves with the same depth and the lock
released; whatever the depth and the lock at entry, if the thread gets through, it leaves
with both as they were at entry; and every `synchronize_rcu()` in it is reached at the
entry depth with the lock released. -/
def balanced (ev : List Event) : Prop :=
  (∀ d, exec_all ⟨d, false⟩ ev = some ⟨d, false⟩ ∧ sync_waits_ok d ⟨d, false⟩ ev = true) ∧
  ∀ c c1, exec_all c ev = some c1 → c1 = c

/-! ## Facts about strings -/

theorem takeWhile_takeWhile_append {α : Type} (p : α → Bool) (a : α) (hp : p a = false)
    (l r : List α) : (l.takeWhile p ++ a :: r).takeWhile p = l.takeWhile p := by
  induction l with
  | nil => simp [List.takeWhile_cons, hp]
  | cons x t ih =>
    cases hx : p x
    · simp [List.takeWhile_cons, hx, hp]
    · simp [List.takeWhile_cons, hx, ih]

theorem cstr_append_zero (l r : List Nat) : cstr (cstr l ++ 0 :: r) = cstr l :=
  takeWhile_takeWhile_append _ 0 (by simp) l r

theorem cstr_strncpy (src : List Nat) (n : Nat) (h : (cstr src).length < n) :
    cstr (strncpy src n) = cstr src := by
  have ht : (cstr src).take n = cstr src := List.take_of_length_le (Nat.le_of_lt h)
  obtain ⟨k, hk⟩ : ∃ k, n - (cstr src).length = k + 1 := ⟨n - (cstr src).length - 1, by omega⟩
  unfold strncpy
  rw [ht, hk, List.replicate_succ]
  exact cstr_append_zero src _

theorem strncpy_length (src : List Nat) (n : Nat) : (strncpy src n).length = n := by
  unfold strncpy
  simp only [List.length_append, List.length_replicate, List.length_take]
  omega

/-! ## Facts about the traversal -/

theorem lfe_some {id : Int} {l : List Node} {c : Cursor}
    (h : list_for_each_entry id l = some c) :
    l = c.before ++ c.b :: c.after ∧ c.b.val.id = id ∧ ∀ x ∈ c.before, x.val.id ≠ id := by
  induction l generalizing c with
  | nil => simp [list_for_each_entry] at h
  | cons a t ih =>
    unfold list_for_each_entry at h
    by_cases ha : a.val.id = id
    · rw [if_pos ha] at h
      cases h
      exact ⟨rfl, ha, by simp⟩
    · rw [if_neg ha] at h
      cases hr : list_for_each_entry id t with
      | none => rw [hr] at h; simp at h
      | some d =>
        rw [hr] at h
        simp only [Option.map_some', Option.some.injEq] at h
        obtain ⟨h1, h2, h3⟩ := ih hr
        subst h
        refine ⟨by simp [← h1], h2, ?_⟩
        intro x hx
        simp only [List.mem_cons] at hx
        rcases hx with rfl | hx
        · exact ha
        · exact h3 x hx

theorem lfe_append {id : Int} (pre : List Node) (b : Node) (post : List Node)
    (hpre : ∀ x ∈ pre, x.val.id ≠ id) (hb : b.val.id = id) :
    list_for_each_entry id (pre ++ b :: post) = some ⟨pre, b, post⟩ := by
  induction pre with
  | nil => simp [list_for_each_entry, hb]
  | cons a t ih =>
    have ha : a.val.id ≠ id := hpre a (by simp)
    have ht : ∀ x ∈ t, x.val.id ≠ id := fun x hx => hpre x (by simp [hx])
    simp [list_for_each_entry, ha, ih ht]

theorem lfe_none {id : Int} {l : List Node} :
    list_for_each_entry id l = none ↔ ∀ x ∈ l, x.val.id ≠ id := by
  induction l with
  | nil => simp [list_for_each_entry]
  | cons a t ih =>
    by_cases ha : a.val.id = id
    · simp [list_for_each_entry, ha]
    · simp [list_for_each_entry, ha, ih]

theorem lfe_append_none {id : Int} (pre post : List Node)
    (hpre : ∀ x ∈ pre, x.val.id ≠ id) (hpost : ∀ x ∈ post, x.val.id ≠ id) :
    list_for_each_entry id (pre ++ post) = none := by
  rw [lfe_none]
  intro x hx
  rcases List.mem_append.mp hx with h | h
  · exact hpre x h
  · exact hpost x h

/-! ## C1: add, then look up -/

/-- C1. After a successful `add_book id name author`, in any state, the first-match
traversal for `id` stops at the new record: its `id` is the given one, its `name`
and `author` buffers hold the given strings (both shorter than 64 bytes), its
`borrow` is 0; `print_book` logs exactly that record and `is_borrowed_book`
returns 0. -/
theorem add_book_then_lookup (s : State) (id : Int) (name author : List Nat)
    (hn : (cstr name).length < 64) (ha : (cstr author).length < 64) :
    ∃ c, list_for_each_entry id (add_book s id name author true).books = some c ∧
      c.b.val.id = id ∧ cstr c.b.val.name = cstr name ∧
      cstr c.b.val.author = cstr author ∧ c.b.val.borrow = 0 ∧
      c.b.addr = s.allocated ∧ c.before = [] ∧ c.after = s.books ∧
      print_book (add_book s id name author true) id =
        some ⟨id, c.b.val.name, c.b.val.author, 0, c.b.addr⟩ ∧
      is_borrowed_book (add_book s id name author true) id = 0 := by
  refine ⟨⟨[], ⟨s.allocated, ⟨id, strncpy name 64, strncpy author 64, 0⟩⟩, s.books⟩, ?_⟩
  have hb : (add_book s id name author true).books =
      ⟨s.allocated, ⟨id, strncpy name 64, strncpy author 64, 0⟩⟩ :: s.books := by
    simp [add_book, kzalloc, list_add_rcu, zeroed]
  refine ⟨?_, rfl, cstr_strncpy name 64 hn, cstr_strncpy author 64 ha, rfl, rfl, rfl, rfl, ?_, ?_⟩
  · rw [hb]; simp [list_for_each_entry]
  · simp [print_book, hb, list_for_each_entry]
  · simp [is_borrowed_book, hb, list_for_each_entry]

/-- C1 at `add_book(7, "book1", "jb")` on a list that already holds a borrowed record
with id 7. -/
theorem add_book_then_lookup_witness :
    ((cstr [98, 111, 111, 107, 49]).length < 64 ∧ (cstr [106, 98]).length < 64) ∧
    ∃ c, list_for_each_entry 7 (add_book ⟨[⟨0, ⟨7, [120], [121], 1⟩⟩], 1, [], []⟩ 7
        [98, 111, 111, 107, 49] [106, 98] true).books = some c ∧
      c.b.val.id = 7 ∧ cstr c.b.val.name = cstr [98, 111, 111, 107, 49] ∧
      cstr c.b.val.author = cstr [106, 98] ∧ c.b.val.borrow = 0 ∧
      c.b.addr = 1 ∧ c.before = [] ∧ c.after = [⟨0, ⟨7, [120], [121], 1⟩⟩] ∧
      print_book (add_book ⟨[⟨0, ⟨7, [120], [121], 1⟩⟩], 1, [], []⟩ 7
        [98, 111, 111, 107, 49] [106, 98] true) 7 =
        some ⟨7, c.b.val.name, c.b.val.author, 0, c.b.addr⟩ ∧
      is_borrowed_book (add_book ⟨[⟨0, ⟨7, [120], [121], 1⟩⟩], 1, [], []⟩ 7
        [98, 111, 111, 107, 49] [106, 98] true) 7 = 0 :=
  ⟨⟨by decide, by decide⟩,
   add_book_then_lookup ⟨[⟨0, ⟨7, [120], [121], 1⟩⟩], 1, [], []⟩ 7
     [98, 111, 111, 107, 49] [106, 98] (by decide) (by decide)⟩

/-! ## The writers on a list split at the first match -/

@[simp]
theorem reclaim_books (s : State) (async : Int) (b : Node) :
    (reclaim s async b).books = s.books := by
  unfold reclaim call_rcu kfree synchronize_rcu
  split <;> rfl

@[simp]
theorem reclaim_allocated (s : State) (async : Int) (b : Node) :
    (reclaim s async b).allocated = s.allocated := by
  unfold reclaim call_rcu kfree synchronize_rcu
  split <;> rfl

theorem borrow_book_done (s : State) (id async : Int) (pre : List Node) (b : Node)
    (post : List Node) (hs : s.books = pre ++ b :: post)
    (hpre : ∀ x ∈ pre, x.val.id ≠ id) (hid : b.val.id = id) (hb : b.val.borrow = 0) :
    borrow_book s id async true =
      (0, reclaim { s with allocated := s.allocated + 1,
                           books := pre ++ ⟨s.allocated, ⟨b.val.id, b.val.name, b.val.author, 1⟩⟩ :: post }
            async b) := by
  simp [borrow_book, hs, lfe_append pre b post hpre hid, hb, kzalloc, list_replace_rcu]

theorem return_book_done (s : State) (id async : Int) (pre : List Node) (b : Node)
    (post : List Node) (hs : s.books = pre ++ b :: post)
    (hpre : ∀ x ∈ pre, x.val.id ≠ id) (hid : b.val.id = id) (hb : b.val.borrow ≠ 0) :
    return_book s id async true =
      (0, reclaim { s with allocated := s.allocated + 1,
                           books := pre ++ ⟨s.allocated, ⟨b.val.id, b.val.name, b.val.author, 0⟩⟩ :: post }
            async b) := by
  simp [return_book, hs, lfe_append pre b post hpre hid, hb, kzalloc, list_replace_rcu]

theorem delete_book_done (s : State) (id async : Int) (pre : List Node) (b : Node)
    (post : List Node) (hs : s.books = pre ++ b :: post)
    (hpre : ∀ x ∈ pre, x.val.id ≠ id) (hid : b.val.id = id) :
    delete_book s id async = reclaim { s with books := pre ++ post } async b := by
  simp [delete_book, hs, lfe_append pre b post hpre hid, list_del_rcu]

theorem borrow_book_absent (s : State) (id async : Int) (ok : Bool)
    (h : ∀ x ∈ s.books, x.val.id ≠ id) : borrow_book s id async ok = (-1, s) := by
  simp [borrow_book, lfe_none.mpr h]

theorem return_book_absent (s : State) (id async : Int) (ok : Bool)
    (h : ∀ x ∈ s.books, x.val.id ≠ id) : return_book s id async ok = (-1, s) := by
  simp [return_book, lfe_none.mpr h]

theorem delete_book_absent (s : State) (id async : Int)
    (h : ∀ x ∈ s.books, x.val.id ≠ id) : delete_book s id async = s := by
  simp [delete_book, lfe_none.mpr h]

theorem borrow_book_conflict (s : State) (id async : Int) (ok : Bool) (pre : List Node)
    (b : Node) (post : List Node) (hs : s.books = pre ++ b :: post)
    (hpre : ∀ x ∈ pre, x.val.id ≠ id) (hid : b.val.id = id) (hb : b.val.borrow ≠ 0) :
    borrow_book s id async ok = (-1, s) := by
  simp [borrow_book, hs, lfe_append pre b post hpre hid, hb]

theorem return_book_conflict (s : State) (id async : Int) (ok : Bool) (pre : List Node)
    (b : Node) (post : List Node) (hs : s.books = pre ++ b :: post)
    (hpre : ∀ x ∈ pre, x.val.id ≠ id) (hid : b.val.id = id) (hb : b.val.borrow = 0) :
    return_book s id async ok = (-1, s) := by
  simp [return_book, hs, lfe_append pre b post hpre hid, hb]

theorem borrow_book_no_memory (s : State) (id async : Int) :
    borrow_book s id async false = (-1, s) := by
  unfold borrow_book
  cases list_for_each_entry id s.books with
  | none => rfl
  | some c => by_cases h : c.b.val.borrow = 0 <;> simp [h, kzalloc]

theorem return_book_no_memory (s : State) (id async : Int) :
    return_book s id async false = (-1, s) := by
  unfold return_book
  cases list_for_each_entry id s.books with
  | none => rfl
  | some c => by_cases h : c.b.val.borrow = 0 <;> simp [h, kzalloc]

/-- A list either has no record with the id, or splits at the first one. -/
theorem split_first (id : Int) (l : List Node) :
    (∀ x ∈ l, x.val.id ≠ id) ∨
    ∃ pre b post, l = pre ++ b :: post ∧ (∀ x ∈ pre, x.val.id ≠ id) ∧ b.val.id = id := by
  cases h : list_for_each_entry id l with
  | none => exact Or.inl (lfe_none.mp h)
  | some c =>
    obtain ⟨h1, h2, h3⟩ := lfe_some h
    exact Or.inr ⟨c.before, c.b, c.after, h1, h3, h2⟩

/-! ## C2: borrowing an available record -/

/-- C2. When the first record with the given id has `borrow = 0` and the copy allocation
succeeds, `borrow_book` returns 0 for every value of `async`, and `is_borrowed_book`
called right after returns 1. -/
theorem borrow_book_available (s : State) (id async : Int) (pre : List Node) (b : Node)
    (post : List Node) (hs : s.books = pre ++ b :: post)
    (hpre : ∀ x ∈ pre, x.val.id ≠ id) (hid : b.val.id = id) (hb : b.val.borrow = 0) :
    (borrow_book s id async true).1 = 0 ∧
    is_borrowed_book (borrow_book s id async true).2 id = 1 := by
  rw [borrow_book_done s id async pre b post hs hpre hid hb]
  refine ⟨rfl, ?_⟩
  simp only [is_borrowed_book, reclaim_books]
  rw [lfe_append pre ⟨s.allocated, ⟨b.val.id, b.val.name, b.val.author, 1⟩⟩ post hpre hid]

/-- C2 on the list `[book 1, book 0]` built by the driver, borrowing id 0 synchronously. -/
theorem borrow_book_available_witness :
    (borrow_book ⟨[⟨1, ⟨1, [50], [106], 0⟩⟩, ⟨0, ⟨0, [49], [106], 0⟩⟩], 2, [], []⟩ 0 0 true).1 = 0 ∧
    is_borrowed_book
      (borrow_book ⟨[⟨1, ⟨1, [50], [106], 0⟩⟩, ⟨0, ⟨0, [49], [106], 0⟩⟩], 2, [], []⟩ 0 0 true).2 0
      = 1 :=
  borrow_book_available ⟨[⟨1, ⟨1, [50], [106], 0⟩⟩, ⟨0, ⟨0, [49], [106], 0⟩⟩], 2, [], []⟩ 0 0
    [⟨1, ⟨1, [50], [106], 0⟩⟩] ⟨0, ⟨0, [49], [106], 0⟩⟩ [] rfl (by decide) rfl rfl

/-! ## C3: conflicts change nothing -/

theorem iterate_fixed {α : Type} (f : α → α) (a : α) (h : f a = a) (n : Nat) :
    f^[n] a = a := by
  induction n with
  | zero => rfl
  | succ k ih => rw [Function.iterate_succ_apply, h, ih]

/-- C3. Let `b` be the first record with the given id. If `b` is borrowed, `borrow_book`
returns -1 and the state after the call is the state before it (list, allocation count,
freed records and queued callbacks), whatever `async` and the allocator do, and so it is
after any number of repeated calls. If `b` is not borrowed, the same holds of
`return_book`. -/
theorem conflict_changes_nothing (s : State) (id : Int) (pre : List Node) (b : Node)
    (post : List Node) (hs : s.books = pre ++ b :: post)
    (hpre : ∀ x ∈ pre, x.val.id ≠ id) (hid : b.val.id = id) :
    (b.val.borrow ≠ 0 →
      (∀ async ok, borrow_book s id async ok = (-1, s)) ∧
      ∀ (n : Nat) async ok async2 ok2,
        borrow_book ((fun t => (borrow_book t id async ok).2)^[n] s) id async2 ok2 = (-1, s)) ∧
    (b.val.borrow = 0 →
      (∀ async ok, return_book s id async ok = (-1, s)) ∧
      ∀ (n : Nat) async ok async2 ok2,
        return_book ((fun t => (return_book t id async ok).2)^[n] s) id async2 ok2 = (-1, s)) := by
  constructor
  · intro hb
    have h1 : ∀ async ok, borrow_book s id async ok = (-1, s) := fun async ok =>
      borrow_book_conflict s id async ok pre b post hs hpre hid hb
    refine ⟨h1, ?_⟩
    intro n async ok async2 ok2
    rw [iterate_fixed _ s (by simp [h1]) n]
    exact h1 async2 ok2
  · intro hb
    have h1 : ∀ async ok, return_book s id async ok = (-1, s) := fun async ok =>
      return_book_conflict s id async ok pre b post hs hpre hid hb
    refine ⟨h1, ?_⟩
    intro n async ok async2 ok2
    rw [iterate_fixed _ s (by simp [h1]) n]
    exact h1 async2 ok2

/-- C3 at a borrowed record (three `borrow_book` calls, then a fourth) and at a record
that is not borrowed (likewise for `return_book`). -/
theorem conflict_changes_nothing_witness :
    (borrow_book ⟨[⟨2, ⟨0, [49], [106], 1⟩⟩, ⟨1, ⟨1, [50], [106], 0⟩⟩], 3,
        [⟨0, ⟨0, [49], [106], 0⟩⟩], []⟩ 0 1 true =
      (-1, ⟨[⟨2, ⟨0, [49], [106], 1⟩⟩, ⟨1, ⟨1, [50], [106], 0⟩⟩], 3,
        [⟨0, ⟨0, [49], [106], 0⟩⟩], []⟩) ∧
     borrow_book ((fun t => (borrow_book t 0 0 true).2)^[3]
        ⟨[⟨2, ⟨0, [49], [106], 1⟩⟩, ⟨1, ⟨1, [50], [106], 0⟩⟩], 3,
          [⟨0, ⟨0, [49], [106], 0⟩⟩], []⟩) 0 1 true =
      (-1, ⟨[⟨2, ⟨0, [49], [106], 1⟩⟩, ⟨1, ⟨1, [50], [106], 0⟩⟩], 3,
        [⟨0, ⟨0, [49], [106], 0⟩⟩], []⟩)) ∧
    (return_book ⟨[⟨0, ⟨5, [49], [106], 0⟩⟩], 1, [], []⟩ 5 0 true =
      (-1, ⟨[⟨0, ⟨5, [49], [106], 0⟩⟩], 1, [], []⟩) ∧
     return_book ((fun t => (return_book t 5 1 true).2)^[3]
        ⟨[⟨0, ⟨5, [49], [106], 0⟩⟩], 1, [], []⟩) 5 0 true =
      (-1, ⟨[⟨0, ⟨5, [49], [106], 0⟩⟩], 1, [], []⟩)) :=
  ⟨⟨((conflict_changes_nothing
        ⟨[⟨2, ⟨0, [49], [106], 1⟩⟩, ⟨1, ⟨1, [50], [106], 0⟩⟩], 3, [⟨0, ⟨0, [49], [106], 0⟩⟩], []⟩
        0 [] ⟨2, ⟨0, [49], [106], 1⟩⟩ [⟨1, ⟨1, [50], [106], 0⟩⟩] rfl (by decide) rfl).1
        (by decide)).1 1 true,
     ((conflict_changes_nothing
        ⟨[⟨2, ⟨0, [49], [106], 1⟩⟩, ⟨1, ⟨1, [50], [106], 0⟩⟩], 3, [⟨0, ⟨0, [49], [106], 0⟩⟩], []⟩
        0 [] ⟨2, ⟨0, [49], [106], 1⟩⟩ [⟨1, ⟨1, [50], [106], 0⟩⟩] rfl (by decide) rfl).1
        (by decide)).2 3 0 true 1 true⟩,
   ⟨((conflict_changes_nothing ⟨[⟨0, ⟨5, [49], [106], 0⟩⟩], 1, [], []⟩
        5 [] ⟨0, ⟨5, [49], [106], 0⟩⟩ [] rfl (by decide) rfl).2 rfl).1 0 true,
    ((conflict_changes_nothing ⟨[⟨0, ⟨5, [49], [106], 0⟩⟩], 1, [], []⟩
        5 [] ⟨0, ⟨5, [49], [106], 0⟩⟩ [] rfl (by decide) rfl).2 rfl).2 3 1 true 0 true⟩⟩

/-! ## C4: borrow, then return -/

/-- C4 as stated fails when the copy allocation fails: on a list whose only record has
id 0 and `borrow = 0`, `borrow_book(0, 0)` with `kzalloc` returning NULL returns -1, not
0, and leaves the state as it was. -/
theorem borrow_return_needs_memory :
    (⟨[⟨0, ⟨0, [49], [106], 0⟩⟩], 1, [], []⟩ : State).books =
      [] ++ ⟨0, ⟨0, [49], [106], 0⟩⟩ :: [] ∧
    (⟨0, ⟨0, [49], [106], 0⟩⟩ : Node).val.id = 0 ∧
    (⟨0, ⟨0, [49], [106], 0⟩⟩ : Node).val.borrow = 0 ∧
    borrow_book ⟨[⟨0, ⟨0, [49], [106], 0⟩⟩], 1, [], []⟩ 0 0 false =
      (-1, ⟨[⟨0, ⟨0, [49], [106], 0⟩⟩], 1, [], []⟩) ∧
    (borrow_book ⟨[⟨0, ⟨0, [49], [106], 0⟩⟩], 1, [], []⟩ 0 0 false).1 ≠ 0 := by
  decide

/-- C4, amended. When the first record with the given id has `borrow = 0` and both copy
allocations succeed, `borrow_book` followed by `return_book` both return 0, for every
choice of the two `async` flags, and the list afterwards holds the same sequence of
record values (id, name, author, borrow) as before: same length, same order. -/
theorem borrow_then_return (s : State) (id a1 a2 : Int) (pre : List Node) (b : Node)
    (post : List Node) (hs : s.books = pre ++ b :: post)
    (hpre : ∀ x ∈ pre, x.val.id ≠ id) (hid : b.val.id = id) (hb : b.val.borrow = 0) :
    (borrow_book s id a1 true).1 = 0 ∧
    (return_book (borrow_book s id a1 true).2 id a2 true).1 = 0 ∧
    (return_book (borrow_book s id a1 true).2 id a2 true).2.books.map (fun x => x.val) =
      s.books.map (fun x => x.val) ∧
    (return_book (borrow_book s id a1 true).2 id a2 true).2.books.length = s.books.length := by
  rw [borrow_book_done s id a1 pre b post hs hpre hid hb]
  have h2 := return_book_done
    (reclaim { s with allocated := s.allocated + 1,
                      books := pre ++ ⟨s.allocated, ⟨b.val.id, b.val.name, b.val.author, 1⟩⟩ :: post } a1 b)
    id a2 pre ⟨s.allocated, ⟨b.val.id, b.val.name, b.val.author, 1⟩⟩ post (by simp) hpre hid (by simp)
  rw [h2]
  have hv : (⟨b.val.id, b.val.name, b.val.author, 0⟩ : book) = b.val := by
    rw [← hb]
  refine ⟨rfl, rfl, ?_, ?_⟩
  · simp [hs, hv]
  · simp [hs]

/-- C4 (amended) on the driver's list, borrowing id 0 synchronously and returning it
asynchronously. -/
theorem borrow_then_return_witness :
    (borrow_book ⟨[⟨1, ⟨1, [50], [106], 0⟩⟩, ⟨0, ⟨0, [49], [106], 0⟩⟩], 2, [], []⟩ 0 0 true).1 = 0 ∧
    (return_book (borrow_book ⟨[⟨1, ⟨1, [50], [106], 0⟩⟩, ⟨0, ⟨0, [49], [106], 0⟩⟩], 2, [], []⟩
      0 0 true).2 0 1 true).1 = 0 ∧
    (return_book (borrow_book ⟨[⟨1, ⟨1, [50], [106], 0⟩⟩, ⟨0, ⟨0, [49], [106], 0⟩⟩], 2, [], []⟩
      0 0 true).2 0 1 true).2.books.map (fun x => x.val) =
      (⟨[⟨1, ⟨1, [50], [106], 0⟩⟩, ⟨0, ⟨0, [49], [106], 0⟩⟩], 2, [], []⟩ : State).books.map
        (fun x => x.val) ∧
    (return_book (borrow_book ⟨[⟨1, ⟨1, [50], [106], 0⟩⟩, ⟨0, ⟨0, [49], [106], 0⟩⟩], 2, [], []⟩
      0 0 true).2 0 1 true).2.books.length =
      (⟨[⟨1, ⟨1, [50], [106], 0⟩⟩, ⟨0, ⟨0, [49], [106], 0⟩⟩], 2, [], []⟩ : State).books.length :=
  borrow_then_return ⟨[⟨1, ⟨1, [50], [106], 0⟩⟩, ⟨0, ⟨0, [49], [106], 0⟩⟩], 2, [], []⟩ 0 0 1
    [⟨1, ⟨1, [50], [106], 0⟩⟩] ⟨0, ⟨0, [49], [106], 0⟩⟩ [] rfl (by decide) rfl rfl

/-! ## C5: a deleted id is not found -/

theorem ne_of_nodup_split {id : Int} {pre post : List Node} {b : Node}
    (h : ((pre ++ b :: post).map (fun x => x.val.id)).Nodup) (hid : b.val.id = id) :
    ∀ x ∈ post, x.val.id ≠ id := by
  intro x hx he
  rw [List.map_append, List.map_cons, List.nodup_append] at h
  have h2 := (List.nodup_cons.mp h.2.1).1
  apply h2
  rw [hid, ← he]
  exact List.mem_map_of_mem (fun x => x.val.id) hx

/-- C5. When the ids on the list are pairwise distinct and some record has the given id,
then after `delete_book id async`, for every value of `async`, no record on the list has
the id: `is_borrowed_book id` returns -1 and `print_book id` takes its "not exist book"
branch. -/
theorem delete_book_then_lookup (s : State) (id async : Int) (hu : unique_ids s)
    (hex : ∃ x ∈ s.books, x.val.id = id) :
    is_borrowed_book (delete_book s id async) id = -1 ∧
    print_book (delete_book s id async) id = none ∧
    ∀ x ∈ (delete_book s id async).books, x.val.id ≠ id := by
  rcases split_first id s.books with hno | ⟨pre, b, post, hs, hpre, hid⟩
  · obtain ⟨x, hx, hxi⟩ := hex
    exact absurd hxi (hno x hx)
  · have hpost : ∀ x ∈ post, x.val.id ≠ id := by
      unfold unique_ids at hu
      rw [hs] at hu
      exact ne_of_nodup_split hu hid
    have hn : list_for_each_entry id (pre ++ post) = none := lfe_append_none pre post hpre hpost
    rw [delete_book_done s id async pre b post hs hpre hid]
    refine ⟨?_, ?_, ?_⟩
    · simp [is_borrowed_book, hn]
    · simp [print_book, hn]
    · simpa using lfe_none.mp hn

/-- C5 on the driver's list after both returns, deleting id 0 asynchronously. -/
theorem delete_book_then_lookup_witness :
    is_borrowed_book
      (delete_book ⟨[⟨5, ⟨1, [50], [106], 0⟩⟩, ⟨4, ⟨0, [49], [106], 0⟩⟩], 6, [], []⟩ 0 1) 0 = -1 ∧
    print_book
      (delete_book ⟨[⟨5, ⟨1, [50], [106], 0⟩⟩, ⟨4, ⟨0, [49], [106], 0⟩⟩], 6, [], []⟩ 0 1) 0 = none ∧
    ∀ x ∈ (delete_book ⟨[⟨5, ⟨1, [50], [106], 0⟩⟩, ⟨4, ⟨0, [49], [106], 0⟩⟩], 6, [], []⟩
      0 1).books, x.val.id ≠ 0 :=
  delete_book_then_lookup ⟨[⟨5, ⟨1, [50], [106], 0⟩⟩, ⟨4, ⟨0, [49], [106], 0⟩⟩], 6, [], []⟩ 0 1
    (by decide) ⟨⟨4, ⟨0, [49], [106], 0⟩⟩, by decide, rfl⟩

/-! ## C6: failed calls change nothing -/

/-- C6. A `borrow_book` or `return_book` call whose allocation fails returns -1 and leaves
the state as it was: the same list (so the old record is still on it), the same
allocation count, nothing freed and nothing queued. The same holds, whatever the
allocator does, of a `borrow_book` or `return_book` call for an id that no record has; and
`delete_book` for such an id leaves the state as it was. -/
theorem failure_changes_nothing (s : State) (id async : Int) :
    borrow_book s id async false = (-1, s) ∧
    return_book s id async false = (-1, s) ∧
    ((∀ x ∈ s.books, x.val.id ≠ id) →
      (∀ ok, borrow_book s id async ok = (-1, s)) ∧
      (∀ ok, return_book s id async ok = (-1, s)) ∧
      delete_book s id async = s) :=
  ⟨borrow_book_no_memory s id async, return_book_no_memory s id async, fun h =>
    ⟨fun ok => borrow_book_absent s id async ok h,
     fun ok => return_book_absent s id async ok h,
     delete_book_absent s id async h⟩⟩

/-- C6 on a list with an available record 0 and a borrowed record 1: allocation
failures for ids 0 and 1, and calls for the absent id 9. -/
theorem failure_changes_nothing_witness :
    borrow_book ⟨[⟨2, ⟨1, [50], [106], 1⟩⟩, ⟨0, ⟨0, [49], [106], 0⟩⟩], 3,
        [⟨1, ⟨1, [50], [106], 0⟩⟩], []⟩ 0 0 false =
      (-1, ⟨[⟨2, ⟨1, [50], [106], 1⟩⟩, ⟨0, ⟨0, [49], [106], 0⟩⟩], 3,
        [⟨1, ⟨1, [50], [106], 0⟩⟩], []⟩) ∧
    return_book ⟨[⟨2, ⟨1, [50], [106], 1⟩⟩, ⟨0, ⟨0, [49], [106], 0⟩⟩], 3,
        [⟨1, ⟨1, [50], [106], 0⟩⟩], []⟩ 1 1 false =
      (-1, ⟨[⟨2, ⟨1, [50], [106], 1⟩⟩, ⟨0, ⟨0, [49], [106], 0⟩⟩], 3,
        [⟨1, ⟨1, [50], [106], 0⟩⟩], []⟩) ∧
    borrow_book ⟨[⟨2, ⟨1, [50], [106], 1⟩⟩, ⟨0, ⟨0, [49], [106], 0⟩⟩], 3,
        [⟨1, ⟨1, [50], [106], 0⟩⟩], []⟩ 9 0 true =
      (-1, ⟨[⟨2, ⟨1, [50], [106], 1⟩⟩, ⟨0, ⟨0, [49], [106], 0⟩⟩], 3,
        [⟨1, ⟨1, [50], [106], 0⟩⟩], []⟩) ∧
    return_book ⟨[⟨2, ⟨1, [50], [106], 1⟩⟩, ⟨0, ⟨0, [49], [106], 0⟩⟩], 3,
        [⟨1, ⟨1, [50], [106], 0⟩⟩], []⟩ 9 0 true =
      (-1, ⟨[⟨2, ⟨1, [50], [106], 1⟩⟩, ⟨0, ⟨0, [49], [106], 0⟩⟩], 3,
        [⟨1, ⟨1, [50], [106], 0⟩⟩], []⟩) ∧
    delete_book ⟨[⟨2, ⟨1, [50], [106], 1⟩⟩, ⟨0, ⟨0, [49], [106], 0⟩⟩], 3,
        [⟨1, ⟨1, [50], [106], 0⟩⟩], []⟩ 9 0 =
      ⟨[⟨2, ⟨1, [50], [106], 1⟩⟩, ⟨0, ⟨0, [49], [106], 0⟩⟩], 3,
        [⟨1, ⟨1, [50], [106], 0⟩⟩], []⟩ :=
  ⟨(failure_changes_nothing ⟨[⟨2, ⟨1, [50], [106], 1⟩⟩, ⟨0, ⟨0, [49], [106], 0⟩⟩], 3,
      [⟨1, ⟨1, [50], [106], 0⟩⟩], []⟩ 0 0).1,
   (failure_changes_nothing ⟨[⟨2, ⟨1, [50], [106], 1⟩⟩, ⟨0, ⟨0, [49], [106], 0⟩⟩], 3,
      [⟨1, ⟨1, [50], [106], 0⟩⟩], []⟩ 1 1).2.1,
   ((failure_changes_nothing ⟨[⟨2, ⟨1, [50], [106], 1⟩⟩, ⟨0, ⟨0, [49], [106], 0⟩⟩], 3,
      [⟨1, ⟨1, [50], [106], 0⟩⟩], []⟩ 9 0).2.2 (by decide)).1 true,
   ((failure_changes_nothing ⟨[⟨2, ⟨1, [50], [106], 1⟩⟩, ⟨0, ⟨0, [49], [106], 0⟩⟩], 3,
      [⟨1, ⟨1, [50], [106], 0⟩⟩], []⟩ 9 0).2.2 (by decide)).2.1 true,
   ((failure_changes_nothing ⟨[⟨2, ⟨1, [50], [106], 1⟩⟩, ⟨0, ⟨0, [49], [106], 0⟩⟩], 3,
      [⟨1, ⟨1, [50], [106], 0⟩⟩], []⟩ 9 0).2.2 (by decide)).2.2⟩

/-! ## C7: the failure causes and the return value -/

/-- C7 as stated fails: `borrow_book` leaves by three different failing `return`
statements (no record with id 0 on the empty list; record 0 already borrowed; record 0
available but `kzalloc` returning NULL) and returns the same value -1 each time;
likewise `return_book`. -/
theorem failure_causes_share_value :
    (borrow_book_exit init 0 true = Exit.not_found ∧
     borrow_book_exit ⟨[⟨0, ⟨0, [49], [106], 1⟩⟩], 1, [], []⟩ 0 true = Exit.conflict ∧
     borrow_book_exit ⟨[⟨0, ⟨0, [49], [106], 0⟩⟩], 1, [], []⟩ 0 false = Exit.no_memory ∧
     (borrow_book init 0 0 true).1 = -1 ∧
     (borrow_book ⟨[⟨0, ⟨0, [49], [106], 1⟩⟩], 1, [], []⟩ 0 0 true).1 = -1 ∧
     (borrow_book ⟨[⟨0, ⟨0, [49], [106], 0⟩⟩], 1, [], []⟩ 0 0 false).1 = -1) ∧
    (return_book_exit init 0 true = Exit.not_found ∧
     return_book_exit ⟨[⟨0, ⟨0, [49], [106], 0⟩⟩], 1, [], []⟩ 0 true = Exit.conflict ∧
     return_book_exit ⟨[⟨0, ⟨0, [49], [106], 1⟩⟩], 1, [], []⟩ 0 false = Exit.no_memory ∧
     (return_book init 0 0 true).1 = -1 ∧
     (return_book ⟨[⟨0, ⟨0, [49], [106], 0⟩⟩], 1, [], []⟩ 0 0 true).1 = -1 ∧
     (return_book ⟨[⟨0, ⟨0, [49], [106], 1⟩⟩], 1, [], []⟩ 0 0 false).1 = -1) := by
  decide

/-- C7, amended. `borrow_book` and `return_book` return 0 when they leave by their last
`return` statement and the one value -1 when they leave by any of the three failing
ones (no record with the id, conflicting borrowed state, failed allocation): the
return value tells failure from success and nothing more. -/
theorem return_value_by_exit (s : State) (id async : Int) (ok : Bool) :
    (borrow_book s id async ok).1 = (if borrow_book_exit s id ok = Exit.done then 0 else -1) ∧
    (return_book s id async ok).1 = (if return_book_exit s id ok = Exit.done then 0 else -1) := by
  constructor
  · unfold borrow_book borrow_book_exit
    cases list_for_each_entry id s.books with
    | none => simp
    | some c =>
      by_cases h : c.b.val.borrow = 0 <;> cases ok <;> simp [h, kzalloc]
  · unfold return_book return_book_exit
    cases list_for_each_entry id s.books with
    | none => simp
    | some c =>
      by_cases h : c.b.val.borrow = 0 <;> cases ok <;> simp [h, kzalloc]

/-! ## The outcomes of the writers -/

theorem borrow_book_cases (s : State) (id async : Int) (ok : Bool) :
    borrow_book s id async ok = (-1, s) ∨
    ∃ pre b post, s.books = pre ++ b :: post ∧ (∀ x ∈ pre, x.val.id ≠ id) ∧ b.val.id = id ∧
      b.val.borrow = 0 ∧ ok = true ∧
      borrow_book s id async ok =
        (0, reclaim { s with allocated := s.allocated + 1,
                             books := pre ++ ⟨s.allocated, ⟨b.val.id, b.val.name, b.val.author, 1⟩⟩ :: post }
              async b) := by
  rcases split_first id s.books with hno | ⟨pre, b, post, hs, hpre, hid⟩
  · exact Or.inl (borrow_book_absent s id async ok hno)
  · by_cases hb : b.val.borrow = 0
    · cases ok with
      | false => exact Or.inl (borrow_book_no_memory s id async)
      | true =>
        exact Or.inr ⟨pre, b, post, hs, hpre, hid, hb, rfl,
          borrow_book_done s id async pre b post hs hpre hid hb⟩
    · exact Or.inl (borrow_book_conflict s id async ok pre b post hs hpre hid hb)

theorem return_book_cases (s : State) (id async : Int) (ok : Bool) :
    return_book s id async ok = (-1, s) ∨
    ∃ pre b post, s.books = pre ++ b :: post ∧ (∀ x ∈ pre, x.val.id ≠ id) ∧ b.val.id = id ∧
      b.val.borrow ≠ 0 ∧ ok = true ∧
      return_book s id async ok =
        (0, reclaim { s with allocated := s.allocated + 1,
                             books := pre ++ ⟨s.allocated, ⟨b.val.id, b.val.name, b.val.author, 0⟩⟩ :: post }
              async b) := by
  rcases split_first id s.books with hno | ⟨pre, b, post, hs, hpre, hid⟩
  · exact Or.inl (return_book_absent s id async ok hno)
  · by_cases hb : b.val.borrow = 0
    · exact Or.inl (return_book_conflict s id async ok pre b post hs hpre hid hb)
    · cases ok with
      | false => exact Or.inl (return_book_no_memory s id async)
      | true =>
        exact Or.inr ⟨pre, b, post, hs, hpre, hid, hb, rfl,
          return_book_done s id async pre b post hs hpre hid hb⟩

theorem delete_book_cases (s : State) (id async : Int) :
    ((∀ x ∈ s.books, x.val.id ≠ id) ∧ delete_book s id async = s) ∨
    ∃ pre b post, s.books = pre ++ b :: post ∧ (∀ x ∈ pre, x.val.id ≠ id) ∧ b.val.id = id ∧
      delete_book s id async = reclaim { s with books := pre ++ post } async b := by
  rcases split_first id s.books with hno | ⟨pre, b, post, hs, hpre, hid⟩
  · exact Or.inl ⟨hno, delete_book_absent s id async hno⟩
  · exact Or.inr ⟨pre, b, post, hs, hpre, hid, delete_book_done s id async pre b post hs hpre hid⟩

theorem add_book_cases (s : State) (id : Int) (name author : List Nat) (ok : Bool) :
    add_book s id name author ok = s ∨
    add_book s id name author ok =
      { s with allocated := s.allocated + 1,
               books := ⟨s.allocated, ⟨id, strncpy name 64, strncpy author 64, 0⟩⟩ :: s.books } := by
  cases ok with
  | false => exact Or.inl (by simp [add_book, kzalloc])
  | true => exact Or.inr (by simp [add_book, kzalloc, list_add_rcu, zeroed])

theorem run_cons (s : State) (op : Op) (ops : List Op) :
    run s (op :: ops) = run (step s op) ops := rfl

/-- A property of states that holds before a sequence of calls and is kept by every call
holds after the sequence. -/
theorem run_induction (P : State → Prop) (hstep : ∀ s op, P s → P (step s op))
    (s : State) (hs : P s) (ops : List Op) : P (run s ops) := by
  induction ops generalizing s with
  | nil => exact hs
  | cons op rest ih => exact ih (step s op) (hstep s op hs)

/-! ## C8: the ids stay pairwise distinct -/

theorem borrow_book_ids (s : State) (id async : Int) (ok : Bool) :
    (borrow_book s id async ok).2.books.map (fun x => x.val.id) =
      s.books.map (fun x => x.val.id) := by
  rcases borrow_book_cases s id async ok with h | ⟨pre, b, post, hs, _, _, _, _, h⟩
  · rw [h]
  · rw [h, hs]; simp

theorem return_book_ids (s : State) (id async : Int) (ok : Bool) :
    (return_book s id async ok).2.books.map (fun x => x.val.id) =
      s.books.map (fun x => x.val.id) := by
  rcases return_book_cases s id async ok with h | ⟨pre, b, post, hs, _, _, _, _, h⟩
  · rw [h]
  · rw [h, hs]; simp

theorem delete_book_ids (s : State) (id async : Int) :
    ((delete_book s id async).books.map (fun x => x.val.id)).Sublist
      (s.books.map (fun x => x.val.id)) := by
  rcases delete_book_cases s id async with ⟨_, h⟩ | ⟨pre, b, post, hs, _, _, h⟩
  · rw [h]
  · rw [h, hs]
    simp only [reclaim_books, List.map_append, List.map_cons]
    exact List.Sublist.append_left (List.sublist_cons_self _ _) _

theorem add_book_unique (s : State) (id : Int) (name author : List Nat) (ok : Bool)
    (h : unique_ids s) (hf : ∀ x ∈ s.books, x.val.id ≠ id) :
    unique_ids (add_book s id name author ok) := by
  rcases add_book_cases s id name author ok with e | e
  · rw [e]; exact h
  · rw [e]
    unfold unique_ids at h ⊢
    simp only [List.map_cons, List.nodup_cons]
    refine ⟨?_, h⟩
    intro hm
    obtain ⟨x, hx, hxi⟩ := List.mem_map.mp hm
    exact hf x hx hxi

theorem fresh_adds_unique (ops : List Op) :
    ∀ s : State, unique_ids s → fresh_adds s ops = true → unique_ids (run s ops) := by
  induction ops with
  | nil => intro s h _; exact h
  | cons op rest ih =>
    intro s h hf
    rw [run_cons]
    cases op with
    | add id name author ok =>
      simp only [fresh_adds, Bool.and_eq_true, List.all_eq_true, decide_eq_true_eq] at hf
      exact ih _ (add_book_unique s id name author ok h hf.1) hf.2
    | borrow id async ok =>
      simp only [fresh_adds] at hf
      refine ih _ ?_ hf
      simp only [step, unique_ids, borrow_book_ids]
      exact h
    | giveback id async ok =>
      simp only [fresh_adds] at hf
      refine ih _ ?_ hf
      simp only [step, unique_ids, return_book_ids]
      exact h
    | delete id async =>
      simp only [fresh_adds] at hf
      refine ih _ ?_ hf
      exact List.Nodup.sublist (delete_book_ids s id async) h

theorem unique_ids_same (s : State) (h : unique_ids s) :
    ∀ x ∈ s.books, ∀ y ∈ s.books, x.val.id = y.val.id → x = y :=
  fun _ hx _ hy he => List.inj_on_of_nodup_map h hx hy he

/-- C8. If the ids of the records on the list are pairwise distinct, they still are after
`borrow_book`, `return_book` and `delete_book` with any arguments and any outcome, and
after `add_book` with an id that no record on the list has. Hence after any sequence of
calls whose every `add_book` uses an id that no record on the list has at that time, in
particular after such a sequence from the empty list, the ids are pairwise distinct: two
records on the list with the same id are the same record. -/
theorem unique_ids_kept (s : State) (h : unique_ids s) :
    (∀ id async ok, unique_ids (borrow_book s id async ok).2) ∧
    (∀ id async ok, unique_ids (return_book s id async ok).2) ∧
    (∀ id async, unique_ids (delete_book s id async)) ∧
    (∀ id name author ok, (∀ x ∈ s.books, x.val.id ≠ id) →
      unique_ids (add_book s id name author ok)) ∧
    (∀ ops, fresh_adds s ops = true →
      unique_ids (run s ops) ∧
      ∀ x ∈ (run s ops).books, ∀ y ∈ (run s ops).books, x.val.id = y.val.id → x = y) ∧
    (∀ ops, fresh_adds init ops = true →
      unique_ids (run init ops) ∧
      ∀ x ∈ (run init ops).books, ∀ y ∈ (run init ops).books, x.val.id = y.val.id → x = y) := by
  refine ⟨?_, ?_, ?_, ?_, ?_, ?_⟩
  · intro id async ok
    simp only [unique_ids, borrow_book_ids]
    exact h
  · intro id async ok
    simp only [unique_ids, return_book_ids]
    exact h
  · intro id async
    exact List.Nodup.sublist (delete_book_ids s id async) h
  · intro id name author ok hf
    exact add_book_unique s id name author ok h hf
  · intro ops hf
    exact ⟨fresh_adds_unique ops s h hf, unique_ids_same _ (fresh_adds_unique ops s h hf)⟩
  · intro ops hf
    have hi : unique_ids init := List.nodup_nil
    exact ⟨fresh_adds_unique ops init hi hf, unique_ids_same _ (fresh_adds_unique ops init hi hf)⟩

/-- C8 from the empty list, on the driver's sequence run twice: ids 0 and 1 are added,
borrowed, returned, deleted, and added again. -/
theorem unique_ids_kept_witness :
    unique_ids init ∧
    fresh_adds init
      [Op.add 0 [49] [106] true, Op.add 1 [50] [106] true, Op.borrow 0 0 true,
       Op.borrow 1 0 true, Op.giveback 0 0 true, Op.giveback 1 0 true, Op.delete 0 0,
       Op.delete 1 0, Op.add 0 [49] [106] true, Op.add 1 [50] [106] true] = true ∧
    unique_ids (run init
      [Op.add 0 [49] [106] true, Op.add 1 [50] [106] true, Op.borrow 0 0 true,
       Op.borrow 1 0 true, Op.giveback 0 0 true, Op.giveback 1 0 true, Op.delete 0 0,
       Op.delete 1 0, Op.add 0 [49] [106] true, Op.add 1 [50] [106] true]) ∧
    unique_ids (add_book init 3 [49] [106] true) :=
  ⟨by decide, by decide,
   ((unique_ids_kept init (by decide)).2.2.2.2.1
      [Op.add 0 [49] [106] true, Op.add 1 [50] [106] true, Op.borrow 0 0 true,
       Op.borrow 1 0 true, Op.giveback 0 0 true, Op.giveback 1 0 true, Op.delete 0 0,
       Op.delete 1 0, Op.add 0 [49] [106] true, Op.add 1 [50] [106] true] (by decide)).1,
   (unique_ids_kept init (by decide)).2.2.2.1 3 [49] [106] true (by decide)⟩

/-! ## C9: the result of `is_borrowed_book` -/

theorem flags_boolean_step (s : State) (op : Op) (h : flags_boolean s) :
    flags_boolean (step s op) := by
  cases op with
  | add id name author ok =>
    rcases add_book_cases s id name author ok with e | e
    · simp only [step, e]; exact h
    · simp only [step, e]
      intro x hx
      rcases List.mem_cons.mp hx with rfl | hx
      · exact Or.inl rfl
      · exact h x hx
  | borrow id async ok =>
    rcases borrow_book_cases s id async ok with e | ⟨pre, b, post, hs, _, _, _, _, e⟩
    · simp only [step, e]; exact h
    · simp only [step, e]
      intro x hx
      simp only [reclaim_books, List.mem_append, List.mem_cons] at hx
      rcases hx with hx | rfl | hx
      · exact h x (by rw [hs]; simp [hx])
      · exact Or.inr rfl
      · exact h x (by rw [hs]; simp [hx])
  | giveback id async ok =>
    rcases return_book_cases s id async ok with e | ⟨pre, b, post, hs, _, _, _, _, e⟩
    · simp only [step, e]; exact h
    · simp only [step, e]
      intro x hx
      simp only [reclaim_books, List.mem_append, List.mem_cons] at hx
      rcases hx with hx | rfl | hx
      · exact h x (by rw [hs]; simp [hx])
      · exact Or.inl rfl
      · exact h x (by rw [hs]; simp [hx])
  | delete id async =>
    rcases delete_book_cases s id async with ⟨_, e⟩ | ⟨pre, b, post, hs, _, _, e⟩
    · simp only [step, e]; exact h
    · simp only [step, e]
      intro x hx
      simp only [reclaim_books, List.mem_append] at hx
      rcases hx with hx | hx
      · exact h x (by rw [hs]; simp [hx])
      · exact h x (by rw [hs]; simp [hx])

theorem flags_boolean_run (ops : List Op) : flags_boolean (run init ops) :=
  run_induction flags_boolean flags_boolean_step init (fun _ hx => absurd hx (List.not_mem_nil _)) ops

/-- C9. In every state reached from the empty list by `add_book`, `borrow_book`,
`return_book` and `delete_book` calls, every record on the list has `borrow` equal to 0
or 1; `is_borrowed_book id` returns -1 exactly when no record on the list has the id, and
otherwise returns the `borrow` of the first record with that id, which is 0 or 1. -/
theorem is_borrowed_book_result (ops : List Op) (id : Int) :
    (∀ x ∈ (run init ops).books, x.val.borrow = 0 ∨ x.val.borrow = 1) ∧
    (is_borrowed_book (run init ops) id = -1 ↔ ∀ x ∈ (run init ops).books, x.val.id ≠ id) ∧
    (∀ pre b post, (run init ops).books = pre ++ b :: post → (∀ x ∈ pre, x.val.id ≠ id) →
      b.val.id = id →
      is_borrowed_book (run init ops) id = b.val.borrow ∧
      (b.val.borrow = 0 ∨ b.val.borrow = 1)) := by
  have hf := flags_boolean_run ops
  have hfound : ∀ pre b post, (run init ops).books = pre ++ b :: post →
      (∀ x ∈ pre, x.val.id ≠ id) → b.val.id = id →
      is_borrowed_book (run init ops) id = b.val.borrow ∧
      (b.val.borrow = 0 ∨ b.val.borrow = 1) := by
    intro pre b post hs hpre hid
    refine ⟨?_, hf b (by rw [hs]; simp)⟩
    simp [is_borrowed_book, hs, lfe_append pre b post hpre hid]
  refine ⟨hf, ?_, hfound⟩
  constructor
  · intro h
    rcases split_first id (run init ops).books with hno | ⟨pre, b, post, hs, hpre, hid⟩
    · exact hno
    · obtain ⟨h1, h2⟩ := hfound pre b post hs hpre hid
      rw [h1] at h
      rcases h2 with h2 | h2 <;> rw [h2] at h <;> exact absurd h (by decide)
  · intro hno
    simp [is_borrowed_book, lfe_none.mpr hno]

/-- C9 after adding ids 0 and 1 and borrowing id 0: id 0 is found borrowed, id 1 is
found not borrowed, id 2 is not found. -/
theorem is_borrowed_book_result_witness :
    is_borrowed_book
      (run init [Op.add 0 [49] [106] true, Op.add 1 [50] [106] true, Op.borrow 0 1 true]) 0 = 1 ∧
    is_borrowed_book
      (run init [Op.add 0 [49] [106] true, Op.add 1 [50] [106] true, Op.borrow 0 1 true]) 1 = 0 ∧
    is_borrowed_book
      (run init [Op.add 0 [49] [106] true, Op.add 1 [50] [106] true, Op.borrow 0 1 true]) 2 = -1 :=
  ⟨((is_borrowed_book_result
      [Op.add 0 [49] [106] true, Op.add 1 [50] [106] true, Op.borrow 0 1 true] 0).2.2
      [⟨1, ⟨1, strncpy [50] 64, strncpy [106] 64, 0⟩⟩]
      ⟨2, ⟨0, strncpy [49] 64, strncpy [106] 64, 1⟩⟩ [] (by decide) (by decide) rfl).1,
   ((is_borrowed_book_result
      [Op.add 0 [49] [106] true, Op.add 1 [50] [106] true, Op.borrow 0 1 true] 1).2.2
      [] ⟨1, ⟨1, strncpy [50] 64, strncpy [106] 64, 0⟩⟩
      [⟨2, ⟨0, strncpy [49] 64, strncpy [106] 64, 1⟩⟩] (by decide) (by decide) rfl).1,
   (is_borrowed_book_result
      [Op.add 0 [49] [106] true, Op.add 1 [50] [106] true, Op.borrow 0 1 true] 2).2.1.mpr
      (by decide)⟩

/-! ## C10: every unlinked record is handed to reclamation once -/

theorem accounted_init : accounted init := by
  decide

theorem accounted_nodup (s : State) (h : accounted s) : (addrs s).Nodup :=
  (List.Perm.nodup_iff h).mpr (List.nodup_range _)

theorem accounted_of_perm (s t : State) (h : accounted s) (ha : t.allocated = s.allocated)
    (hp : (addrs t).Perm (addrs s)) : accounted t := by
  unfold accounted at h ⊢
  rw [ha]
  exact hp.trans h

theorem accounted_of_perm_cons (s t : State) (h : accounted s)
    (ha : t.allocated = s.allocated + 1) (hp : (addrs t).Perm (s.allocated :: addrs s)) :
    accounted t := by
  unfold accounted at h ⊢
  rw [ha, List.range_succ]
  exact (hp.trans (List.Perm.cons _ h)).trans
    (List.perm_append_singleton s.allocated (List.range s.allocated)).symm

theorem accounted_count (s : State) (h : accounted s) (a : Nat) (ha : a < s.allocated) :
    (addrs s).count a = 1 :=
  List.count_eq_one_of_mem (accounted_nodup s h)
    ((List.Perm.mem_iff h).mpr (List.mem_range.mpr ha))

theorem handed_reclaim (s : State) (async : Int) (b : Node) :
    (handed (reclaim s async b)).Perm (b :: handed s) := by
  unfold reclaim call_rcu kfree synchronize_rcu handed
  by_cases h : async = 0
  · simp only [h, ne_eq, not_true_eq_false, if_false]
    rw [List.perm_iff_count]
    intro x
    simp only [List.count_append, List.count_cons, List.count_nil]
    omega
  · simp only [h, ne_eq, not_false_eq_true, if_true]
    rw [List.perm_iff_count]
    intro x
    simp only [List.count_append, List.count_cons, List.count_nil]
    omega

theorem reclaim_lists (s : State) (async : Int) (b : Node) :
    if async ≠ 0 then (reclaim s async b).rcu_cbs = s.rcu_cbs ++ [b] ∧
        (reclaim s async b).freed = s.freed
    else (reclaim s async b).freed = s.freed ++ [b] ∧
        (reclaim s async b).rcu_cbs = s.rcu_cbs := by
  unfold reclaim call_rcu kfree synchronize_rcu
  by_cases h : async = 0 <;> simp [h]

theorem addrs_replace (s : State) (async : Int) (pre post : List Node) (b : Node) (v : book)
    (hs : s.books = pre ++ b :: post) :
    (addrs (reclaim { s with allocated := s.allocated + 1,
                             books := pre ++ ⟨s.allocated, v⟩ :: post } async b)).Perm
      (s.allocated :: addrs s) := by
  unfold addrs
  rw [reclaim_books, hs]
  have hp := List.Perm.map (fun x : Node => x.addr)
    (handed_reclaim { s with allocated := s.allocated + 1,
                             books := pre ++ ⟨s.allocated, v⟩ :: post } async b)
  have hh : handed { s with allocated := s.allocated + 1,
                            books := pre ++ ⟨s.allocated, v⟩ :: post } = handed s := rfl
  rw [hh] at hp
  rw [List.perm_iff_count] at hp ⊢
  intro x
  have hx := hp x
  simp only [List.map_append, List.map_cons, List.count_append, List.count_cons] at hx ⊢
  omega

theorem addrs_delete (s : State) (async : Int) (pre post : List Node) (b : Node)
    (hs : s.books = pre ++ b :: post) :
    (addrs (reclaim { s with books := pre ++ post } async b)).Perm (addrs s) := by
  unfold addrs
  rw [reclaim_books, hs]
  have hp := List.Perm.map (fun x : Node => x.addr)
    (handed_reclaim { s with books := pre ++ post } async b)
  have hh : handed { s with books := pre ++ post } = handed s := rfl
  rw [hh] at hp
  rw [List.perm_iff_count] at hp ⊢
  intro x
  have hx := hp x
  simp only [List.map_append, List.map_cons, List.count_append, List.count_cons] at hx ⊢
  omega

theorem accounted_disjoint (s : State) (h : accounted s) (x y : Node) (hx : x ∈ s.books)
    (hy : y ∈ handed s) : x.addr ≠ y.addr := by
  intro he
  have hn := accounted_nodup s h
  unfold addrs at hn
  rw [List.map_append, List.nodup_append] at hn
  exact hn.2.2 (List.mem_map_of_mem (fun x => x.addr) hx)
    (by rw [he]; exact List.mem_map_of_mem (fun x => x.addr) hy)

theorem accounted_handed_nodup (s : State) (h : accounted s) : (handed s).Nodup := by
  have hn := accounted_nodup s h
  unfold addrs at hn
  exact (List.nodup_append.mp (List.Nodup.of_map _ hn)).2.1

theorem hands_over_reclaim (s u : State) (async : Int) (b : Node) (hs : accounted s)
    (hb : b ∈ s.books) (hf : u.freed = s.freed) (hc : u.rcu_cbs = s.rcu_cbs)
    (ht : accounted (reclaim u async b)) : hands_over s (reclaim u async b) async b := by
  have hmem : b ∈ handed (reclaim u async b) :=
    (List.Perm.mem_iff (handed_reclaim u async b)).mpr (List.mem_cons_self _ _)
  have haddr : b.addr ∉ (reclaim u async b).books.map (fun x => x.addr) := by
    intro hm
    obtain ⟨x, hx, hxa⟩ := List.mem_map.mp hm
    exact accounted_disjoint _ ht x b hx hmem hxa
  refine ⟨?_, haddr, ?_, ?_, ?_⟩
  · intro hm
    exact haddr (List.mem_map_of_mem (fun x => x.addr) hm)
  · intro hm
    exact accounted_disjoint s hs b b hb hm rfl
  · exact List.count_eq_one_of_mem (accounted_handed_nodup _ ht) hmem
  · have h := reclaim_lists u async b
    rw [hf, hc] at h
    exact h

/-- C10. Over states in which the addresses on the list and the addresses handed to
reclamation are pairwise distinct and are exactly the allocated ones, every call keeps
that accounting. A `borrow_book` or `return_book` call that returns 0, and a
`delete_book` call for an id on the list, hands exactly one record to reclamation,
once: a record with the given id that was on the list before the call, is not on it
after the call and had not been handed over before. A call that fails, and `add_book`,
hand over nothing. Hence the accounting holds after every sequence of calls, in
particular from the empty list: the address of every record ever allocated occurs once
among the records on the list and the records handed over (it is on the list or handed
over, never both and never handed over twice). -/
theorem retired_exactly_once (s : State) (h : accounted s) :
    (∀ id async ok,
      accounted (borrow_book s id async ok).2 ∧
      ((borrow_book s id async ok).1 = 0 →
        ∃ old ∈ s.books, old.val.id = id ∧
          hands_over s (borrow_book s id async ok).2 async old) ∧
      ((borrow_book s id async ok).1 ≠ 0 → (borrow_book s id async ok).2 = s)) ∧
    (∀ id async ok,
      accounted (return_book s id async ok).2 ∧
      ((return_book s id async ok).1 = 0 →
        ∃ old ∈ s.books, old.val.id = id ∧
          hands_over s (return_book s id async ok).2 async old) ∧
      ((return_book s id async ok).1 ≠ 0 → (return_book s id async ok).2 = s)) ∧
    (∀ id async,
      accounted (delete_book s id async) ∧
      ((∃ x ∈ s.books, x.val.id = id) →
        ∃ old ∈ s.books, old.val.id = id ∧ hands_over s (delete_book s id async) async old) ∧
      ((∀ x ∈ s.books, x.val.id ≠ id) → delete_book s id async = s)) ∧
    (∀ id name author ok,
      accounted (add_book s id name author ok) ∧
      (add_book s id name author ok).freed = s.freed ∧
      (add_book s id name author ok).rcu_cbs = s.rcu_cbs) ∧
    (∀ ops, accounted (run s ops) ∧
      ∀ a, a < (run s ops).allocated → (addrs (run s ops)).count a = 1) ∧
    (∀ ops, accounted (run init ops) ∧
      ∀ a, a < (run init ops).allocated → (addrs (run init ops)).count a = 1) := by
  have hborrow : ∀ (t : State), accounted t → ∀ id async ok,
      accounted (borrow_book t id async ok).2 ∧
      ((borrow_book t id async ok).1 = 0 →
        ∃ old ∈ t.books, old.val.id = id ∧
          hands_over t (borrow_book t id async ok).2 async old) ∧
      ((borrow_book t id async ok).1 ≠ 0 → (borrow_book t id async ok).2 = t) := by
    intro t ht id async ok
    rcases borrow_book_cases t id async ok with e | ⟨pre, b, post, hs, _, hid, _, _, e⟩
    · rw [e]
      exact ⟨ht, fun h0 => absurd h0 (by simp), fun _ => rfl⟩
    · rw [e]
      have hacc := accounted_of_perm_cons t _ ht (reclaim_allocated _ async b)
        (addrs_replace t async pre post b ⟨b.val.id, b.val.name, b.val.author, 1⟩ hs)
      refine ⟨hacc, fun _ => ⟨b, by rw [hs]; simp, hid, ?_⟩, fun h0 => absurd rfl h0⟩
      exact hands_over_reclaim t _ async b ht (by rw [hs]; simp) rfl rfl hacc
  have hreturn : ∀ (t : State), accounted t → ∀ id async ok,
      accounted (return_book t id async ok).2 ∧
      ((return_book t id async ok).1 = 0 →
        ∃ old ∈ t.books, old.val.id = id ∧
          hands_over t (return_book t id async ok).2 async old) ∧
      ((return_book t id async ok).1 ≠ 0 → (return_book t id async ok).2 = t) := by
    intro t ht id async ok
    rcases return_book_cases t id async ok with e | ⟨pre, b, post, hs, _, hid, _, _, e⟩
    · rw [e]
      exact ⟨ht, fun h0 => absurd h0 (by simp), fun _ => rfl⟩
    · rw [e]
      have hacc := accounted_of_perm_cons t _ ht (reclaim_allocated _ async b)
        (addrs_replace t async pre post b ⟨b.val.id, b.val.name, b.val.author, 0⟩ hs)
      refine ⟨hacc, fun _ => ⟨b, by rw [hs]; simp, hid, ?_⟩, fun h0 => absurd rfl h0⟩
      exact hands_over_reclaim t _ async b ht (by rw [hs]; simp) rfl rfl hacc
  have hdelete : ∀ (t : State), accounted t → ∀ id async,
      accounted (delete_book t id async) ∧
      ((∃ x ∈ t.books, x.val.id = id) →
        ∃ old ∈ t.books, old.val.id = id ∧ hands_over t (delete_book t id async) async old) ∧
      ((∀ x ∈ t.books, x.val.id ≠ id) → delete_book t id async = t) := by
    intro t ht id async
    rcases delete_book_cases t id async with ⟨hno, e⟩ | ⟨pre, b, post, hs, _, hid, e⟩
    · rw [e]
      refine ⟨ht, ?_, fun _ => rfl⟩
      rintro ⟨x, hx, hxi⟩
      exact absurd hxi (hno x hx)
    · rw [e]
      have hacc := accounted_of_perm t
        (reclaim { t with books := pre ++ post } async b) ht (reclaim_allocated _ async b)
        (addrs_delete t async pre post b hs)
      refine ⟨hacc, fun _ => ⟨b, by rw [hs]; simp, hid, ?_⟩, ?_⟩
      · exact hands_over_reclaim t _ async b ht (by rw [hs]; simp) rfl rfl hacc
      · intro hno
        exact absurd hid (hno b (by rw [hs]; simp))
  have hadd : ∀ (t : State), accounted t → ∀ id name author ok,
      accounted (add_book t id name author ok) ∧
      (add_book t id name author ok).freed = t.freed ∧
      (add_book t id name author ok).rcu_cbs = t.rcu_cbs := by
    intro t ht id name author ok
    rcases add_book_cases t id name author ok with e | e
    · rw [e]; exact ⟨ht, rfl, rfl⟩
    · rw [e]
      exact ⟨accounted_of_perm_cons t _ ht rfl (List.Perm.refl _), rfl, rfl⟩
  have hstep : ∀ (t : State) (op : Op), accounted t → accounted (step t op) := by
    intro t op ht
    cases op with
    | add id name author ok => exact (hadd t ht id name author ok).1
    | borrow id async ok => exact (hborrow t ht id async ok).1
    | giveback id async ok => exact (hreturn t ht id async ok).1
    | delete id async => exact (hdelete t ht id async).1
  have hrun : ∀ (t : State), accounted t → ∀ ops, accounted (run t ops) ∧
      ∀ a, a < (run t ops).allocated → (addrs (run t ops)).count a = 1 := by
    intro t ht ops
    have hr := run_induction accounted hstep t ht ops
    exact ⟨hr, accounted_count _ hr⟩
  exact ⟨hborrow s h, hreturn s h, hdelete s h, hadd s h, hrun s h, hrun init accounted_init⟩

/-- C10 on the driver's list `[book 1, book 0]`: a synchronous `borrow_book(0)` and an
asynchronous `delete_book(1)` each hand over the record they unlink, and the accounting
holds afterwards. -/
theorem retired_exactly_once_witness :
    accounted ⟨[⟨1, ⟨1, [50], [106], 0⟩⟩, ⟨0, ⟨0, [49], [106], 0⟩⟩], 2, [], []⟩ ∧
    (accounted
        (borrow_book ⟨[⟨1, ⟨1, [50], [106], 0⟩⟩, ⟨0, ⟨0, [49], [106], 0⟩⟩], 2, [], []⟩
          0 0 true).2 ∧
      ∃ old ∈ (⟨[⟨1, ⟨1, [50], [106], 0⟩⟩, ⟨0, ⟨0, [49], [106], 0⟩⟩], 2, [], []⟩ : State).books,
        old.val.id = 0 ∧
        hands_over ⟨[⟨1, ⟨1, [50], [106], 0⟩⟩, ⟨0, ⟨0, [49], [106], 0⟩⟩], 2, [], []⟩
          (borrow_book ⟨[⟨1, ⟨1, [50], [106], 0⟩⟩, ⟨0, ⟨0, [49], [106], 0⟩⟩], 2, [], []⟩
            0 0 true).2 0 old) ∧
    (accounted
        (delete_book ⟨[⟨1, ⟨1, [50], [106], 0⟩⟩, ⟨0, ⟨0, [49], [106], 0⟩⟩], 2, [], []⟩ 1 1) ∧
      ∃ old ∈ (⟨[⟨1, ⟨1, [50], [106], 0⟩⟩, ⟨0, ⟨0, [49], [106], 0⟩⟩], 2, [], []⟩ : State).books,
        old.val.id = 1 ∧
        hands_over ⟨[⟨1, ⟨1, [50], [106], 0⟩⟩, ⟨0, ⟨0, [49], [106], 0⟩⟩], 2, [], []⟩
          (delete_book ⟨[⟨1, ⟨1, [50], [106], 0⟩⟩, ⟨0, ⟨0, [49], [106], 0⟩⟩], 2, [], []⟩ 1 1)
          1 old) :=
  have h0 : accounted ⟨[⟨1, ⟨1, [50], [106], 0⟩⟩, ⟨0, ⟨0, [49], [106], 0⟩⟩], 2, [], []⟩ :=
    by decide
  ⟨h0,
   ⟨((retired_exactly_once _ h0).1 0 0 true).1,
    ((retired_exactly_once _ h0).1 0 0 true).2.1 (by decide)⟩,
   ⟨((retired_exactly_once _ h0).2.2.1 1 1).1,
    ((retired_exactly_once _ h0).2.2.1 1 1).2.1 ⟨⟨1, ⟨1, [50], [106], 0⟩⟩, by decide, rfl⟩⟩⟩

/-! ## C13: what a successful update changes -/

theorem accounted_addr_lt (s : State) (h : accounted s) (x : Node)
    (hx : x ∈ s.books ∨ x ∈ handed s) : x.addr < s.allocated := by
  have hm : x.addr ∈ addrs s := by
    unfold addrs
    exact List.mem_map_of_mem (fun x => x.addr) (List.mem_append.mpr hx)
  exact List.mem_range.mp ((List.Perm.mem_iff h).mp hm)

/-- The facts of a successful update that rest on the allocation accounting: the new
record is at an address no record on the list or handed over has, the old record is off
the list and handed over once, and the accounting still holds. -/
theorem update_unlinks (s : State) (async : Int) (pre post : List Node) (b : Node) (v : book)
    (hs : s.books = pre ++ b :: post) (hacc : accounted s) :
    s.allocated ≠ b.addr ∧
    (∀ x ∈ s.books, x.addr ≠ s.allocated) ∧
    (∀ x ∈ handed s, x.addr ≠ s.allocated) ∧
    b ∉ (reclaim ⟨pre ++ ⟨s.allocated, v⟩ :: post, s.allocated + 1, s.freed, s.rcu_cbs⟩
      async b).books ∧
    b.addr ∉ (reclaim ⟨pre ++ ⟨s.allocated, v⟩ :: post, s.allocated + 1, s.freed, s.rcu_cbs⟩
      async b).books.map (fun x => x.addr) ∧
    hands_over s (reclaim ⟨pre ++ ⟨s.allocated, v⟩ :: post, s.allocated + 1, s.freed,
      s.rcu_cbs⟩ async b) async b ∧
    accounted (reclaim ⟨pre ++ ⟨s.allocated, v⟩ :: post, s.allocated + 1, s.freed, s.rcu_cbs⟩
      async b) := by
  have hb : b ∈ s.books := by rw [hs]; simp
  have hnew := accounted_of_perm_cons s
    (reclaim ⟨pre ++ ⟨s.allocated, v⟩ :: post, s.allocated + 1, s.freed, s.rcu_cbs⟩ async b)
    hacc (reclaim_allocated _ async b) (addrs_replace s async pre post b v hs)
  have hh := hands_over_reclaim s
    ⟨pre ++ ⟨s.allocated, v⟩ :: post, s.allocated + 1, s.freed, s.rcu_cbs⟩ async b hacc hb
    rfl rfl hnew
  refine ⟨?_, ?_, ?_, hh.1, hh.2.1, hh, hnew⟩
  · exact fun he => absurd (accounted_addr_lt s hacc b (Or.inl hb)) (by rw [← he]; exact lt_irrefl _)
  · exact fun x hx he =>
      absurd (accounted_addr_lt s hacc x (Or.inl hx)) (by rw [he]; exact lt_irrefl _)
  · exact fun x hx he =>
      absurd (accounted_addr_lt s hacc x (Or.inr hx)) (by rw [he]; exact lt_irrefl _)

/-- C13. When `borrow_book` returns 0, the list splits at the first record `old` with the
given id, which was not borrowed; after the call the list is the same with a new record
in the place of `old` (same length, every other record untouched and in the same
place); the new record is a fresh allocation with the id, name and author of `old` and
`borrow = 1`; and `old` itself, with the field values it had before the call, is the
record handed to reclamation. When moreover the addresses on the list and handed over
are accounted for, the address of the new record differs from that of `old` and of every
record on the list or handed over before the call, `old` and its address are no longer on
the list, `old` is handed over exactly once, and the accounting still holds: the update
is made on a copy, never in a record on the list. Likewise for `return_book`, where `old`
was borrowed and the new record has `borrow = 0`. -/
theorem update_frame (s : State) (id async : Int) (ok : Bool) :
    ((borrow_book s id async ok).1 = 0 →
      ∃ pre old post new, (s : State).books = pre ++ old :: post ∧
        (∀ x ∈ pre, x.val.id ≠ id) ∧ old.val.id = id ∧ old.val.borrow = 0 ∧
        (borrow_book s id async ok).2.books = pre ++ new :: post ∧
        (borrow_book s id async ok).2.books.length = (s : State).books.length ∧
        new.addr = (s : State).allocated ∧
        new.val = ⟨old.val.id, old.val.name, old.val.author, 1⟩ ∧
        (if (async : Int) ≠ 0 then
          (borrow_book s id async ok).2.rcu_cbs = (s : State).rcu_cbs ++ [old] ∧
          (borrow_book s id async ok).2.freed = (s : State).freed
        else
          (borrow_book s id async ok).2.freed = (s : State).freed ++ [old] ∧
          (borrow_book s id async ok).2.rcu_cbs = (s : State).rcu_cbs) ∧
        (accounted s → new.addr ≠ old.addr ∧
          (∀ x ∈ (s : State).books, x.addr ≠ new.addr) ∧
          (∀ x ∈ handed s, x.addr ≠ new.addr) ∧
          old ∉ (borrow_book s id async ok).2.books ∧
          old.addr ∉ (borrow_book s id async ok).2.books.map (fun x => x.addr) ∧
          hands_over s (borrow_book s id async ok).2 async old ∧
          accounted (borrow_book s id async ok).2)) ∧
    ((return_book s id async ok).1 = 0 →
      ∃ pre old post new, (s : State).books = pre ++ old :: post ∧
        (∀ x ∈ pre, x.val.id ≠ id) ∧ old.val.id = id ∧ old.val.borrow ≠ 0 ∧
        (return_book s id async ok).2.books = pre ++ new :: post ∧
        (return_book s id async ok).2.books.length = (s : State).books.length ∧
        new.addr = (s : State).allocated ∧
        new.val = ⟨old.val.id, old.val.name, old.val.author, 0⟩ ∧
        (if (async : Int) ≠ 0 then
          (return_book s id async ok).2.rcu_cbs = (s : State).rcu_cbs ++ [old] ∧
          (return_book s id async ok).2.freed = (s : State).freed
        else
          (return_book s id async ok).2.freed = (s : State).freed ++ [old] ∧
          (return_book s id async ok).2.rcu_cbs = (s : State).rcu_cbs) ∧
        (accounted s → new.addr ≠ old.addr ∧
          (∀ x ∈ (s : State).books, x.addr ≠ new.addr) ∧
          (∀ x ∈ handed s, x.addr ≠ new.addr) ∧
          old ∉ (return_book s id async ok).2.books ∧
          old.addr ∉ (return_book s id async ok).2.books.map (fun x => x.addr) ∧
          hands_over s (return_book s id async ok).2 async old ∧
          accounted (return_book s id async ok).2)) := by
  constructor
  · intro h0
    rcases borrow_book_cases s id async ok with e | ⟨pre, b, post, hs, hpre, hid, hb, hok, e⟩
    · rw [e] at h0
      exact absurd h0 (by simp)
    · subst hok
      rw [e]
      refine ⟨pre, b, post, ⟨s.allocated, ⟨b.val.id, b.val.name, b.val.author, 1⟩⟩,
        hs, hpre, hid, hb, by simp, by simp [hs], rfl, rfl, ?_, ?_⟩
      · exact reclaim_lists
          ⟨pre ++ ⟨s.allocated, ⟨b.val.id, b.val.name, b.val.author, 1⟩⟩ :: post,
            s.allocated + 1, s.freed, s.rcu_cbs⟩ async b
      · intro hacc
        exact update_unlinks s async pre post b ⟨b.val.id, b.val.name, b.val.author, 1⟩ hs hacc
  · intro h0
    rcases return_book_cases s id async ok with e | ⟨pre, b, post, hs, hpre, hid, hb, hok, e⟩
    · rw [e] at h0
      exact absurd h0 (by simp)
    · subst hok
      rw [e]
      refine ⟨pre, b, post, ⟨s.allocated, ⟨b.val.id, b.val.name, b.val.author, 0⟩⟩,
        hs, hpre, hid, hb, by simp, by simp [hs], rfl, rfl, ?_, ?_⟩
      · exact reclaim_lists
          ⟨pre ++ ⟨s.allocated, ⟨b.val.id, b.val.name, b.val.author, 0⟩⟩ :: post,
            s.allocated + 1, s.freed, s.rcu_cbs⟩ async b
      · intro hacc
        exact update_unlinks s async pre post b ⟨b.val.id, b.val.name, b.val.author, 0⟩ hs hacc

/-- C13 on an accounted list with record 1 available and record 0 borrowed (an earlier
copy of record 0 already freed): a synchronous `borrow_book(1)` and an asynchronous
`return_book(0)`. -/
theorem update_frame_witness :
    accounted ⟨[⟨2, ⟨0, [49], [106], 1⟩⟩, ⟨1, ⟨1, [50], [106], 0⟩⟩], 3, [⟨0, ⟨0, [49], [106], 0⟩⟩], []⟩ ∧
    (borrow_book ⟨[⟨2, ⟨0, [49], [106], 1⟩⟩, ⟨1, ⟨1, [50], [106], 0⟩⟩], 3, [⟨0, ⟨0, [49], [106], 0⟩⟩], []⟩ 1 0 true).1 = 0 ∧
    (return_book ⟨[⟨2, ⟨0, [49], [106], 1⟩⟩, ⟨1, ⟨1, [50], [106], 0⟩⟩], 3, [⟨0, ⟨0, [49], [106], 0⟩⟩], []⟩ 0 1 true).1 = 0 ∧
    (∃ pre old post new, (⟨[⟨2, ⟨0, [49], [106], 1⟩⟩, ⟨1, ⟨1, [50], [106], 0⟩⟩], 3, [⟨0, ⟨0, [49], [106], 0⟩⟩], []⟩ : State).books = pre ++ old :: post ∧
        (∀ x ∈ pre, x.val.id ≠ 1) ∧ old.val.id = 1 ∧ old.val.borrow = 0 ∧
        (borrow_book ⟨[⟨2, ⟨0, [49], [106], 1⟩⟩, ⟨1, ⟨1, [50], [106], 0⟩⟩], 3, [⟨0, ⟨0, [49], [106], 0⟩⟩], []⟩ 1 0 true).2.books = pre ++ new :: post ∧
        (borrow_book ⟨[⟨2, ⟨0, [49], [106], 1⟩⟩, ⟨1, ⟨1, [50], [106], 0⟩⟩], 3, [⟨0, ⟨0, [49], [106], 0⟩⟩], []⟩ 1 0 true).2.books.length = (⟨[⟨2, ⟨0, [49], [106], 1⟩⟩, ⟨1, ⟨1, [50], [106], 0⟩⟩], 3, [⟨0, ⟨0, [49], [106], 0⟩⟩], []⟩ : State).books.length ∧
        new.addr = (⟨[⟨2, ⟨0, [49], [106], 1⟩⟩, ⟨1, ⟨1, [50], [106], 0⟩⟩], 3, [⟨0, ⟨0, [49], [106], 0⟩⟩], []⟩ : State).allocated ∧
        new.val = ⟨old.val.id, old.val.name, old.val.author, 1⟩ ∧
        (if (0 : Int) ≠ 0 then
          (borrow_book ⟨[⟨2, ⟨0, [49], [106], 1⟩⟩, ⟨1, ⟨1, [50], [106], 0⟩⟩], 3, [⟨0, ⟨0, [49], [106], 0⟩⟩], []⟩ 1 0 true).2.rcu_cbs = (⟨[⟨2, ⟨0, [49], [106], 1⟩⟩, ⟨1, ⟨1, [50], [106], 0⟩⟩], 3, [⟨0, ⟨0, [49], [106], 0⟩⟩], []⟩ : State).rcu_cbs ++ [old] ∧
          (borrow_book ⟨[⟨2, ⟨0, [49], [106], 1⟩⟩, ⟨1, ⟨1, [50], [106], 0⟩⟩], 3, [⟨0, ⟨0, [49], [106], 0⟩⟩], []⟩ 1 0 true).2.freed = (⟨[⟨2, ⟨0, [49], [106], 1⟩⟩, ⟨1, ⟨1, [50], [106], 0⟩⟩], 3, [⟨0, ⟨0, [49], [106], 0⟩⟩], []⟩ : State).freed
        else
          (borrow_book ⟨[⟨2, ⟨0, [49], [106], 1⟩⟩, ⟨1, ⟨1, [50], [106], 0⟩⟩], 3, [⟨0, ⟨0, [49], [106], 0⟩⟩], []⟩ 1 0 true).2.freed = (⟨[⟨2, ⟨0, [49], [106], 1⟩⟩, ⟨1, ⟨1, [50], [106], 0⟩⟩], 3, [⟨0, ⟨0, [49], [106], 0⟩⟩], []⟩ : State).freed ++ [old] ∧
          (borrow_book ⟨[⟨2, ⟨0, [49], [106], 1⟩⟩, ⟨1, ⟨1, [50], [106], 0⟩⟩], 3, [⟨0, ⟨0, [49], [106], 0⟩⟩], []⟩ 1 0 true).2.rcu_cbs = (⟨[⟨2, ⟨0, [49], [106], 1⟩⟩, ⟨1, ⟨1, [50], [106], 0⟩⟩], 3, [⟨0, ⟨0, [49], [106], 0⟩⟩], []⟩ : State).rcu_cbs) ∧
        (new.addr ≠ old.addr ∧
          (∀ x ∈ (⟨[⟨2, ⟨0, [49], [106], 1⟩⟩, ⟨1, ⟨1, [50], [106], 0⟩⟩], 3, [⟨0, ⟨0, [49], [106], 0⟩⟩], []⟩ : State).books, x.addr ≠ new.addr) ∧
          (∀ x ∈ handed ⟨[⟨2, ⟨0, [49], [106], 1⟩⟩, ⟨1, ⟨1, [50], [106], 0⟩⟩], 3, [⟨0, ⟨0, [49], [106], 0⟩⟩], []⟩, x.addr ≠ new.addr) ∧
          old ∉ (borrow_book ⟨[⟨2, ⟨0, [49], [106], 1⟩⟩, ⟨1, ⟨1, [50], [106], 0⟩⟩], 3, [⟨0, ⟨0, [49], [106], 0⟩⟩], []⟩ 1 0 true).2.books ∧
          old.addr ∉ (borrow_book ⟨[⟨2, ⟨0, [49], [106], 1⟩⟩, ⟨1, ⟨1, [50], [106], 0⟩⟩], 3, [⟨0, ⟨0, [49], [106], 0⟩⟩], []⟩ 1 0 true).2.books.map (fun x => x.addr) ∧
          hands_over ⟨[⟨2, ⟨0, [49], [106], 1⟩⟩, ⟨1, ⟨1, [50], [106], 0⟩⟩], 3, [⟨0, ⟨0, [49], [106], 0⟩⟩], []⟩ (borrow_book ⟨[⟨2, ⟨0, [49], [106], 1⟩⟩, ⟨1, ⟨1, [50], [106], 0⟩⟩], 3, [⟨0, ⟨0, [49], [106], 0⟩⟩], []⟩ 1 0 true).2 0 old ∧
          accounted (borrow_book ⟨[⟨2, ⟨0, [49], [106], 1⟩⟩, ⟨1, ⟨1, [50], [106], 0⟩⟩], 3, [⟨0, ⟨0, [49], [106], 0⟩⟩], []⟩ 1 0 true).2)) ∧
    (∃ pre old post new, (⟨[⟨2, ⟨0, [49], [106], 1⟩⟩, ⟨1, ⟨1, [50], [106], 0⟩⟩], 3, [⟨0, ⟨0, [49], [106], 0⟩⟩], []⟩ : State).books = pre ++ old :: post ∧
        (∀ x ∈ pre, x.val.id ≠ 0) ∧ old.val.id = 0 ∧ old.val.borrow ≠ 0 ∧
        (return_book ⟨[⟨2, ⟨0, [49], [106], 1⟩⟩, ⟨1, ⟨1, [50], [106], 0⟩⟩], 3, [⟨0, ⟨0, [49], [106], 0⟩⟩], []⟩ 0 1 true).2.books = pre ++ new :: post ∧
        (return_book ⟨[⟨2, ⟨0, [49], [106], 1⟩⟩, ⟨1, ⟨1, [50], [106], 0⟩⟩], 3, [⟨0, ⟨0, [49], [106], 0⟩⟩], []⟩ 0 1 true).2.books.length = (⟨[⟨2, ⟨0, [49], [106], 1⟩⟩, ⟨1, ⟨1, [50], [106], 0⟩⟩], 3, [⟨0, ⟨0, [49], [106], 0⟩⟩], []⟩ : State).books.length ∧
        new.addr = (⟨[⟨2, ⟨0, [49], [106], 1⟩⟩, ⟨1, ⟨1, [50], [106], 0⟩⟩], 3, [⟨0, ⟨0, [49], [106], 0⟩⟩], []⟩ : State).allocated ∧
        new.val = ⟨old.val.id, old.val.name, old.val.author, 0⟩ ∧
        (if (1 : Int) ≠ 0 then
          (return_book ⟨[⟨2, ⟨0, [49], [106], 1⟩⟩, ⟨1, ⟨1, [50], [106], 0⟩⟩], 3, [⟨0, ⟨0, [49], [106], 0⟩⟩], []⟩ 0 1 true).2.rcu_cbs = (⟨[⟨2, ⟨0, [49], [106], 1⟩⟩, ⟨1, ⟨1, [50], [106], 0⟩⟩], 3, [⟨0, ⟨0, [49], [106], 0⟩⟩], []⟩ : State).rcu_cbs ++ [old] ∧
          (return_book ⟨[⟨2, ⟨0, [49], [106], 1⟩⟩, ⟨1, ⟨1, [50], [106], 0⟩⟩], 3, [⟨0, ⟨0, [49], [106], 0⟩⟩], []⟩ 0 1 true).2.freed = (⟨[⟨2, ⟨0, [49], [106], 1⟩⟩, ⟨1, ⟨1, [50], [106], 0⟩⟩], 3, [⟨0, ⟨0, [49], [106], 0⟩⟩], []⟩ : State).freed
        else
          (return_book ⟨[⟨2, ⟨0, [49], [106], 1⟩⟩, ⟨1, ⟨1, [50], [106], 0⟩⟩], 3, [⟨0, ⟨0, [49], [106], 0⟩⟩], []⟩ 0 1 true).2.freed = (⟨[⟨2, ⟨0, [49], [106], 1⟩⟩, ⟨1, ⟨1, [50], [106], 0⟩⟩], 3, [⟨0, ⟨0, [49], [106], 0⟩⟩], []⟩ : State).freed ++ [old] ∧
          (return_book ⟨[⟨2, ⟨0, [49], [106], 1⟩⟩, ⟨1, ⟨1, [50], [106], 0⟩⟩], 3, [⟨0, ⟨0, [49], [106], 0⟩⟩], []⟩ 0 1 true).2.rcu_cbs = (⟨[⟨2, ⟨0, [49], [106], 1⟩⟩, ⟨1, ⟨1, [50], [106], 0⟩⟩], 3, [⟨0, ⟨0, [49], [106], 0⟩⟩], []⟩ : State).rcu_cbs) ∧
        (new.addr ≠ old.addr ∧
          (∀ x ∈ (⟨[⟨2, ⟨0, [49], [106], 1⟩⟩, ⟨1, ⟨1, [50], [106], 0⟩⟩], 3, [⟨0, ⟨0, [49], [106], 0⟩⟩], []⟩ : State).books, x.addr ≠ new.addr) ∧
          (∀ x ∈ handed ⟨[⟨2, ⟨0, [49], [106], 1⟩⟩, ⟨1, ⟨1, [50], [106], 0⟩⟩], 3, [⟨0, ⟨0, [49], [106], 0⟩⟩], []⟩, x.addr ≠ new.addr) ∧
          old ∉ (return_book ⟨[⟨2, ⟨0, [49], [106], 1⟩⟩, ⟨1, ⟨1, [50], [106], 0⟩⟩], 3, [⟨0, ⟨0, [49], [106], 0⟩⟩], []⟩ 0 1 true).2.books ∧
          old.addr ∉ (return_book ⟨[⟨2, ⟨0, [49], [106], 1⟩⟩, ⟨1, ⟨1, [50], [106], 0⟩⟩], 3, [⟨0, ⟨0, [49], [106], 0⟩⟩], []⟩ 0 1 true).2.books.map (fun x => x.addr) ∧
          hands_over ⟨[⟨2, ⟨0, [49], [106], 1⟩⟩, ⟨1, ⟨1, [50], [106], 0⟩⟩], 3, [⟨0, ⟨0, [49], [106], 0⟩⟩], []⟩ (return_book ⟨[⟨2, ⟨0, [49], [106], 1⟩⟩, ⟨1, ⟨1, [50], [106], 0⟩⟩], 3, [⟨0, ⟨0, [49], [106], 0⟩⟩], []⟩ 0 1 true).2 1 old ∧
          accounted (return_book ⟨[⟨2, ⟨0, [49], [106], 1⟩⟩, ⟨1, ⟨1, [50], [106], 0⟩⟩], 3, [⟨0, ⟨0, [49], [106], 0⟩⟩], []⟩ 0 1 true).2)) := by
  refine ⟨by decide, by decide, by decide, ?_, ?_⟩
  · obtain ⟨pre, old, post, new, h1, h2, h3, h4, h5, h6, h7, h8, h9, h10⟩ :=
      (update_frame ⟨[⟨2, ⟨0, [49], [106], 1⟩⟩, ⟨1, ⟨1, [50], [106], 0⟩⟩], 3, [⟨0, ⟨0, [49], [106], 0⟩⟩], []⟩ 1 0 true).1 (by decide)
    exact ⟨pre, old, post, new, h1, h2, h3, h4, h5, h6, h7, h8, h9, h10 (by decide)⟩
  · obtain ⟨pre, old, post, new, h1, h2, h3, h4, h5, h6, h7, h8, h9, h10⟩ :=
      (update_frame ⟨[⟨2, ⟨0, [49], [106], 1⟩⟩, ⟨1, ⟨1, [50], [106], 0⟩⟩], 3, [⟨0, ⟨0, [49], [106], 0⟩⟩], []⟩ 0 1 true).2 (by decide)
    exact ⟨pre, old, post, new, h1, h2, h3, h4, h5, h6, h7, h8, h9, h10 (by decide)⟩

/-! ## C14: what a delete removes -/

/-- C14. When some record on the list has the given id, the list splits at the first
such record and `delete_book` leaves the records before it followed by the records after
it: the list is one shorter, every other record keeps its field values and its place
relative to the others, and the list after the call does not depend on `async`. -/
theorem delete_frame (s : State) (id async : Int) (hex : ∃ x ∈ s.books, x.val.id = id) :
    ∃ pre b post, s.books = pre ++ b :: post ∧ (∀ x ∈ pre, x.val.id ≠ id) ∧ b.val.id = id ∧
      (delete_book s id async).books = pre ++ post ∧
      (delete_book s id async).books.length + 1 = s.books.length ∧
      ∀ async2, (delete_book s id async2).books = (delete_book s id async).books := by
  rcases delete_book_cases s id async with ⟨hno, _⟩ | ⟨pre, b, post, hs, hpre, hid, e⟩
  · obtain ⟨x, hx, hxi⟩ := hex
    exact absurd hxi (hno x hx)
  · refine ⟨pre, b, post, hs, hpre, hid, by rw [e]; simp, by rw [e, hs]; simp; omega, ?_⟩
    intro async2
    rw [e, delete_book_done s id async2 pre b post hs hpre hid]
    simp

/-- C14 on a list with two records of id 0 and one of id 1: `delete_book(0)` removes the
first record with id 0 only, synchronously or asynchronously. -/
theorem delete_frame_witness :
    (delete_book ⟨[⟨2, ⟨1, [50], [106], 0⟩⟩, ⟨1, ⟨0, [51], [106], 1⟩⟩,
        ⟨0, ⟨0, [49], [106], 0⟩⟩], 3, [], []⟩ 0 0).books =
      [⟨2, ⟨1, [50], [106], 0⟩⟩, ⟨0, ⟨0, [49], [106], 0⟩⟩] ∧
    ∃ pre b post, (⟨[⟨2, ⟨1, [50], [106], 0⟩⟩, ⟨1, ⟨0, [51], [106], 1⟩⟩,
        ⟨0, ⟨0, [49], [106], 0⟩⟩], 3, [], []⟩ : State).books = pre ++ b :: post ∧
      (∀ x ∈ pre, x.val.id ≠ 0) ∧ b.val.id = 0 ∧
      (delete_book ⟨[⟨2, ⟨1, [50], [106], 0⟩⟩, ⟨1, ⟨0, [51], [106], 1⟩⟩,
        ⟨0, ⟨0, [49], [106], 0⟩⟩], 3, [], []⟩ 0 1).books = pre ++ post ∧
      (delete_book ⟨[⟨2, ⟨1, [50], [106], 0⟩⟩, ⟨1, ⟨0, [51], [106], 1⟩⟩,
        ⟨0, ⟨0, [49], [106], 0⟩⟩], 3, [], []⟩ 0 1).books.length + 1 =
        (⟨[⟨2, ⟨1, [50], [106], 0⟩⟩, ⟨1, ⟨0, [51], [106], 1⟩⟩,
          ⟨0, ⟨0, [49], [106], 0⟩⟩], 3, [], []⟩ : State).books.length ∧
      ∀ async2, (delete_book ⟨[⟨2, ⟨1, [50], [106], 0⟩⟩, ⟨1, ⟨0, [51], [106], 1⟩⟩,
        ⟨0, ⟨0, [49], [106], 0⟩⟩], 3, [], []⟩ 0 async2).books =
        (delete_book ⟨[⟨2, ⟨1, [50], [106], 0⟩⟩, ⟨1, ⟨0, [51], [106], 1⟩⟩,
          ⟨0, ⟨0, [49], [106], 0⟩⟩], 3, [], []⟩ 0 1).books :=
  ⟨by decide,
   delete_frame ⟨[⟨2, ⟨1, [50], [106], 0⟩⟩, ⟨1, ⟨0, [51], [106], 1⟩⟩,
     ⟨0, ⟨0, [49], [106], 0⟩⟩], 3, [], []⟩ 0 1 ⟨⟨0, ⟨0, [49], [106], 0⟩⟩, by decide, rfl⟩⟩

/-! ## C15: where `add_book` puts the new record -/

/-- C15 as stated fails: on a list holding one record with id 0, `add_book(1, ...)` puts
the new record before that record, not after it, so the traversal meets the records in
the order 1, 0 and not in the order of insertion 0, 1. -/
theorem add_book_not_at_end :
    (add_book ⟨[⟨0, ⟨0, [49], [106], 0⟩⟩], 1, [], []⟩ 1 [50] [106] true).books =
      [⟨1, ⟨1, strncpy [50] 64, strncpy [106] 64, 0⟩⟩, ⟨0, ⟨0, [49], [106], 0⟩⟩] ∧
    (add_book ⟨[⟨0, ⟨0, [49], [106], 0⟩⟩], 1, [], []⟩ 1 [50] [106] true).books ≠
      [⟨0, ⟨0, [49], [106], 0⟩⟩, ⟨1, ⟨1, strncpy [50] 64, strncpy [106] 64, 0⟩⟩] ∧
    (run init [Op.add 0 [49] [106] true, Op.add 1 [50] [106] true]).books.map
      (fun x => x.val.id) = [1, 0] := by
  decide

theorem run_append (s : State) (l1 l2 : List Op) : run s (l1 ++ l2) = run (run s l1) l2 := by
  simp [run, List.foldl_append]

/-- C15, amended. Every record added by `add_book` is placed at the front of the list,
before every record already present, which keep their order; so after a sequence of
successful `add_book` calls from the empty list the traversal meets the records in the
reverse of the order of insertion. -/
theorem add_book_at_front (s : State) (id : Int) (name author : List Nat)
    (recs : List (Int × List Nat × List Nat)) :
    (add_book s id name author true).books =
      ⟨s.allocated, ⟨id, strncpy name 64, strncpy author 64, 0⟩⟩ :: s.books ∧
    (run init (recs.map (fun r => Op.add r.1 r.2.1 r.2.2 true))).books.map (fun x => x.val.id) =
      (recs.map (fun r => r.1)).reverse := by
  constructor
  · simp [add_book, kzalloc, list_add_rcu, zeroed]
  · induction recs using List.reverseRecOn with
    | nil => rfl
    | append_singleton l r ih =>
      rw [List.map_append, run_append]
      simp only [List.map_cons, List.map_nil, run, List.foldl_cons, List.foldl_nil, step]
      simp only [run] at ih
      simp [add_book, kzalloc, list_add_rcu, zeroed, ih]

/-! ## C16: the driver leaves the list as it found it -/

theorem add_book_books (s : State) (id : Int) (name author : List Nat) :
    (add_book s id name author true).books =
      ⟨s.allocated, ⟨id, strncpy name 64, strncpy author 64, 0⟩⟩ :: s.books := by
  simp [add_book, kzalloc, list_add_rcu, zeroed]

theorem borrow_book_books (s : State) (id async : Int) (pre : List Node) (b : Node)
    (post : List Node) (hs : s.books = pre ++ b :: post)
    (hpre : ∀ x ∈ pre, x.val.id ≠ id) (hid : b.val.id = id) (hb : b.val.borrow = 0) :
    (borrow_book s id async true).1 = 0 ∧
    (borrow_book s id async true).2.books =
      pre ++ ⟨s.allocated, ⟨b.val.id, b.val.name, b.val.author, 1⟩⟩ :: post := by
  rw [borrow_book_done s id async pre b post hs hpre hid hb]
  exact ⟨rfl, by simp⟩

theorem return_book_books (s : State) (id async : Int) (pre : List Node) (b : Node)
    (post : List Node) (hs : s.books = pre ++ b :: post)
    (hpre : ∀ x ∈ pre, x.val.id ≠ id) (hid : b.val.id = id) (hb : b.val.borrow ≠ 0) :
    (return_book s id async true).1 = 0 ∧
    (return_book s id async true).2.books =
      pre ++ ⟨s.allocated, ⟨b.val.id, b.val.name, b.val.author, 0⟩⟩ :: post := by
  rw [return_book_done s id async pre b post hs hpre hid hb]
  exact ⟨rfl, by simp⟩

theorem delete_book_books (s : State) (id async : Int) (pre : List Node) (b : Node)
    (post : List Node) (hs : s.books = pre ++ b :: post)
    (hpre : ∀ x ∈ pre, x.val.id ≠ id) (hid : b.val.id = id) :
    (delete_book s id async).books = pre ++ post := by
  rw [delete_book_done s id async pre b post hs hpre hid]
  simp

theorem test_example_books (s : State) (async : Int) (ok : Nat → Bool)
    (hok : ∀ n, n < 6 → ok n = true) :
    (test_example s async ok).results = [0, 0, 0, 0] ∧
    (test_example s async ok).final.books = s.books := by
  have k0 := hok 0 (by omega)
  have k1 := hok 1 (by omega)
  have k2 := hok 2 (by omega)
  have k3 := hok 3 (by omega)
  have k4 := hok 4 (by omega)
  have k5 := hok 5 (by omega)
  simp only [test_example, k0, k1, k2, k3, k4, k5]
  have h1 := add_book_books s 0 book1 jb
  have h2 := add_book_books (add_book s 0 book1 jb true) 1 book2 jb
  rw [h1] at h2
  obtain ⟨r1, h3⟩ := borrow_book_books (add_book (add_book s 0 book1 jb true) 1 book2 jb true)
    0 async [_] _ s.books h2 (by simp) rfl rfl
  obtain ⟨r2, h4⟩ := borrow_book_books _ 1 async [] _ _ h3 (by simp) rfl rfl
  obtain ⟨r3, h5⟩ := return_book_books _ 0 async [_] _ s.books h4 (by simp) rfl (by simp)
  obtain ⟨r4, h6⟩ := return_book_books _ 1 async [] _ _ h5 (by simp) rfl (by simp)
  have h7 := delete_book_books _ 0 async [_] _ s.books h6 (by simp) rfl
  have h8 := delete_book_books _ 1 async [] _ s.books h7 (by simp) rfl
  exact ⟨by rw [r1, r2, r3, r4], h8⟩

/-- C16. For every list it starts from and every value of `async`, when all six
allocations succeed the sequence of `test_example` (adding ids 0 and 1, borrowing both,
returning both, deleting both) gets 0 from each `borrow_book` and `return_book` call and
ends with the list it started from; from the empty list it ends with the empty list, so
the asynchronous run of `list_rcu_example_init` starts from the same list as the
synchronous run, and ends with it. -/
theorem test_example_restores (s : State) (async : Int) (ok : Nat → Bool)
    (hok : ∀ n, n < 6 → ok n = true) :
    (test_example s async ok).results = [0, 0, 0, 0] ∧
    (test_example s async ok).final.books = s.books ∧
    (test_example init async ok).final.books = [] ∧
    (list_rcu_example_init init ok ok).2.1.final.books = init.books ∧
    (list_rcu_example_init init ok ok).2.2.results = [0, 0, 0, 0] ∧
    (list_rcu_example_init init ok ok).2.2.final.books = init.books := by
  refine ⟨(test_example_books s async ok hok).1, (test_example_books s async ok hok).2,
    (test_example_books init async ok hok).2, (test_example_books init 0 ok hok).2, ?_, ?_⟩
  · exact (test_example_books (test_example init 0 ok).final 1 ok hok).1
  · have h := (test_example_books (test_example init 0 ok).final 1 ok hok).2
    rw [(test_example_books init 0 ok hok).2] at h
    exact h

/-- C16 from a list that already holds a borrowed record with id 0, in asynchronous
mode, and for the two runs of `list_rcu_example_init` from the empty list. -/
theorem test_example_restores_witness :
    (test_example ⟨[⟨0, ⟨0, [120], [121], 1⟩⟩], 1, [], []⟩ 1 (fun _ => true)).results =
      [0, 0, 0, 0] ∧
    (test_example ⟨[⟨0, ⟨0, [120], [121], 1⟩⟩], 1, [], []⟩ 1 (fun _ => true)).final.books =
      [⟨0, ⟨0, [120], [121], 1⟩⟩] ∧
    (list_rcu_example_init init (fun _ => true) (fun _ => true)).2.2.final.books = [] :=
  ⟨(test_example_restores ⟨[⟨0, ⟨0, [120], [121], 1⟩⟩], 1, [], []⟩ 1 (fun _ => true)
      (fun _ _ => rfl)).1,
   (test_example_restores ⟨[⟨0, ⟨0, [120], [121], 1⟩⟩], 1, [], []⟩ 1 (fun _ => true)
      (fun _ _ => rfl)).2.1,
   (test_example_restores init 0 (fun _ => true) (fun _ _ => rfl)).2.2.2.2.2⟩

/-! ## C17: field reads and the reader session -/

theorem reads_in_session_lock (n : Nat) (rest : List Event) :
    reads_in_session n (Event.rcu_read_lock :: rest) = reads_in_session (n + 1) rest := rfl

theorem reads_in_session_scan (n : Nat) (l : List Node) (rest : List Event) :
    reads_in_session (n + 1) (scan_reads l ++ rest) = reads_in_session (n + 1) rest := by
  induction l with
  | nil => rfl
  | cons a t ih =>
    have hc : scan_reads (a :: t) ++ rest =
        Event.read a.addr Field.id :: (scan_reads t ++ rest) := rfl
    rw [hc]
    simp [reads_in_session, ih]

theorem reads_in_session_reclaim (n : Nat) (async : Int) (a : Nat) :
    reads_in_session n (reclaim_events async a) = true := by
  unfold reclaim_events
  by_cases h : async = 0 <;> simp [h, reads_in_session]

/-- The sibling paths: in `print_book`, `borrow_book` and `return_book` every field read
happens before the `rcu_read_unlock()` of the path; in `is_borrowed_book` this holds only
on the path that finds no record. -/
theorem reads_in_session_paths (s : State) (id async : Int) (ok : Bool) :
    reads_in_session 0 (print_book_events s id) = true ∧
    reads_in_session 0 (borrow_book_events s id async ok) = true ∧
    reads_in_session 0 (return_book_events s id async ok) = true ∧
    (reads_in_session 0 (is_borrowed_book_events s id) = true ↔
      ∀ x ∈ s.books, x.val.id ≠ id) := by
  refine ⟨?_, ?_, ?_, ?_⟩
  · unfold print_book_events
    cases list_for_each_entry id s.books with
    | none =>
      simp only [List.append_assoc, List.singleton_append, List.cons_append, List.nil_append]
      rw [reads_in_session_lock, reads_in_session_scan]
      rfl
    | some c =>
      simp only [List.append_assoc, List.singleton_append, List.cons_append, List.nil_append]
      rw [reads_in_session_lock, reads_in_session_scan]
      rfl
  · unfold borrow_book_events
    cases list_for_each_entry id s.books with
    | none =>
      simp only [List.append_assoc, List.singleton_append, List.cons_append, List.nil_append]
      rw [reads_in_session_lock, reads_in_session_scan]
      rfl
    | some c =>
      simp only [List.append_assoc, List.singleton_append, List.cons_append, List.nil_append]
      rw [reads_in_session_lock, reads_in_session_scan]
      by_cases hb : c.b.val.borrow = 0 <;> cases ok <;>
        simp [hb, kzalloc, reads_in_session, reads_in_session_reclaim]
  · unfold return_book_events
    cases list_for_each_entry id s.books with
    | none =>
      simp only [List.append_assoc, List.singleton_append, List.cons_append, List.nil_append]
      rw [reads_in_session_lock, reads_in_session_scan]
      rfl
    | some c =>
      simp only [List.append_assoc, List.singleton_append, List.cons_append, List.nil_append]
      rw [reads_in_session_lock, reads_in_session_scan]
      by_cases hb : c.b.val.borrow = 0 <;> cases ok <;>
        simp [hb, kzalloc, reads_in_session, reads_in_session_reclaim]
  · unfold is_borrowed_book_events
    cases h : list_for_each_entry id s.books with
    | none =>
      simp only [List.append_assoc, List.singleton_append, List.cons_append, List.nil_append]
      rw [reads_in_session_lock, reads_in_session_scan]
      simp only [reads_in_session, true_iff]
      exact lfe_none.mp h
    | some c =>
      simp only [List.append_assoc, List.singleton_append, List.cons_append, List.nil_append]
      rw [reads_in_session_lock, reads_in_session_scan]
      obtain ⟨h1, h2, _⟩ := lfe_some h
      have hf : reads_in_session (0 + 1)
          [Event.read c.b.addr Field.id, Event.rcu_read_unlock,
           Event.read c.b.addr Field.borrow] = false := rfl
      rw [hf]
      simp only [Bool.false_eq_true, false_iff, not_forall]
      exact ⟨c.b, by rw [h1]; simp, fun hne => hne h2⟩

/-- C17 fails on the code: on a list holding a record with id 0, `is_borrowed_book(0)`
closes its session (`rcu_read_unlock()`, line 154) and then reads `b->borrow` (line 155),
so that read happens outside the session; `print_book(0)` on the same list reads its
fields before closing the session. -/
theorem is_borrowed_book_reads_after_unlock :
    is_borrowed_book_events ⟨[⟨0, ⟨0, [49], [106], 0⟩⟩], 1, [], []⟩ 0 =
      [Event.rcu_read_lock, Event.read 0 Field.id, Event.rcu_read_unlock,
       Event.read 0 Field.borrow] ∧
    reads_in_session 0 (is_borrowed_book_events ⟨[⟨0, ⟨0, [49], [106], 0⟩⟩], 1, [], []⟩ 0) =
      false ∧
    reads_in_session 0 (print_book_events ⟨[⟨0, ⟨0, [49], [106], 0⟩⟩], 1, [], []⟩ 0) = true := by
  decide

/-! ## C20: sessions and the lock are balanced -/

theorem exec_all_scan (c : Ctl) (l : List Node) (rest : List Event) :
    exec_all c (scan_reads l ++ rest) = exec_all c rest := by
  induction l with
  | nil => rfl
  | cons a t ih =>
    have hc : scan_reads (a :: t) ++ rest =
        Event.read a.addr Field.id :: (scan_reads t ++ rest) := rfl
    rw [hc]
    simp only [exec_all, exec]
    exact ih

theorem sync_waits_ok_scan (entry : Nat) (c : Ctl) (l : List Node) (rest : List Event) :
    sync_waits_ok entry c (scan_reads l ++ rest) = sync_waits_ok entry c rest := by
  induction l with
  | nil => rfl
  | cons a t ih =>
    have hc : scan_reads (a :: t) ++ rest =
        Event.read a.addr Field.id :: (scan_reads t ++ rest) := rfl
    rw [hc]
    simp only [sync_waits_ok, exec]
    simp [ih]

theorem exec_all_cons (c : Ctl) (e : Event) (rest : List Event) :
    exec_all c (e :: rest) =
      match exec c e with
      | some c1 => exec_all c1 rest
      | none => none := rfl

theorem sync_waits_ok_cons (entry : Nat) (c : Ctl) (e : Event) (rest : List Event) :
    sync_waits_ok entry c (e :: rest) =
      ((if e = Event.synchronize_rcu then decide (c.depth = entry) && !c.held else true) &&
       (match exec c e with
        | some c1 => sync_waits_ok entry c1 rest
        | none => true)) := rfl

theorem balanced_of (ev : List Event)
    (h1 : ∀ d, exec_all ⟨d, false⟩ ev = some ⟨d, false⟩ ∧ sync_waits_ok d ⟨d, false⟩ ev = true)
    (h2 : ∀ d, exec_all ⟨d, true⟩ ev = some ⟨d, true⟩ ∨ exec_all ⟨d, true⟩ ev = none) :
    balanced ev := by
  refine ⟨h1, ?_⟩
  intro c c1 hc
  rcases c with ⟨d, h⟩
  cases h with
  | false =>
    rw [(h1 d).1] at hc
    exact (Option.some.inj hc).symm
  | true =>
    rcases h2 d with h | h
    · rw [h] at hc
      exact (Option.some.inj hc).symm
    · rw [h] at hc
      exact absurd hc (by simp)

theorem balanced_add_book (ok : Bool) : balanced (add_book_events ok) := by
  apply balanced_of
  · intro d
    cases ok <;> simp [add_book_events, exec_all, exec, sync_waits_ok]
  · intro d
    cases ok <;> simp [add_book_events, exec_all, exec]

theorem balanced_reader (l : List Node) (tail : List Event)
    (h1 : ∀ d, exec_all ⟨d + 1, false⟩ tail = some ⟨d, false⟩ ∧
      sync_waits_ok d ⟨d + 1, false⟩ tail = true)
    (h2 : ∀ d, exec_all ⟨d + 1, true⟩ tail = some ⟨d, true⟩ ∨
      exec_all ⟨d + 1, true⟩ tail = none) :
    balanced ([Event.rcu_read_lock] ++ scan_reads l ++ tail) := by
  apply balanced_of
  · intro d
    simp only [List.append_assoc, List.singleton_append, List.cons_append, List.nil_append]
    rw [exec_all_cons, sync_waits_ok_cons]
    simp only [exec]
    rw [exec_all_scan, sync_waits_ok_scan]
    simpa using h1 d
  · intro d
    simp only [List.append_assoc, List.singleton_append, List.cons_append, List.nil_append]
    rw [exec_all_cons]
    simp only [exec]
    rw [exec_all_scan]
    exact h2 d

theorem balanced_is_borrowed_book (s : State) (id : Int) :
    balanced (is_borrowed_book_events s id) := by
  unfold is_borrowed_book_events
  cases list_for_each_entry id s.books with
  | none =>
    apply balanced_reader
    · intro d; simp [exec_all, exec, sync_waits_ok]
    · intro d; simp [exec_all, exec]
  | some c =>
    apply balanced_reader
    · intro d; simp [exec_all, exec, sync_waits_ok]
    · intro d; simp [exec_all, exec]

theorem balanced_print_book (s : State) (id : Int) : balanced (print_book_events s id) := by
  unfold print_book_events
  cases list_for_each_entry id s.books with
  | none =>
    apply balanced_reader
    · intro d; simp [exec_all, exec, sync_waits_ok]
    · intro d; simp [exec_all, exec]
  | some c =>
    apply balanced_reader
    · intro d; simp [exec_all, exec, sync_waits_ok]
    · intro d; simp [exec_all, exec]

theorem balanced_borrow_book (s : State) (id async : Int) (ok : Bool) :
    balanced (borrow_book_events s id async ok) := by
  unfold borrow_book_events
  cases list_for_each_entry id s.books with
  | none =>
    apply balanced_reader
    · intro d; simp [exec_all, exec, sync_waits_ok]
    · intro d; simp [exec_all, exec]
  | some c =>
    simp only [List.append_assoc ([Event.rcu_read_lock] ++ scan_reads c.before)]
    apply balanced_reader
    · intro d
      by_cases hb : c.b.val.borrow = 0 <;> cases ok <;> by_cases ha : async = 0 <;>
        simp [hb, ha, kzalloc, reclaim_events, exec_all, exec, sync_waits_ok]
    · intro d
      by_cases hb : c.b.val.borrow = 0 <;> cases ok <;> by_cases ha : async = 0 <;>
        simp [hb, ha, kzalloc, reclaim_events, exec_all, exec]

theorem balanced_return_book (s : State) (id async : Int) (ok : Bool) :
    balanced (return_book_events s id async ok) := by
  unfold return_book_events
  cases list_for_each_entry id s.books with
  | none =>
    apply balanced_reader
    · intro d; simp [exec_all, exec, sync_waits_ok]
    · intro d; simp [exec_all, exec]
  | some c =>
    simp only [List.append_assoc ([Event.rcu_read_lock] ++ scan_reads c.before)]
    apply balanced_reader
    · intro d
      by_cases hb : c.b.val.borrow = 0 <;> cases ok <;> by_cases ha : async = 0 <;>
        simp [hb, ha, kzalloc, reclaim_events, exec_all, exec, sync_waits_ok]
    · intro d
      by_cases hb : c.b.val.borrow = 0 <;> cases ok <;> by_cases ha : async = 0 <;>
        simp [hb, ha, kzalloc, reclaim_events, exec_all, exec]

theorem balanced_delete_book (s : State) (id async : Int) :
    balanced (delete_book_events s id async) := by
  unfold delete_book_events
  cases list_for_each_entry id s.books with
  | none =>
    apply balanced_of
    · intro d
      simp only [List.append_assoc, List.singleton_append, List.cons_append, List.nil_append]
      rw [exec_all_cons, sync_waits_ok_cons]
      simp only [exec]
      simp [exec_all_scan, sync_waits_ok_scan, exec_all, exec, sync_waits_ok]
    · intro d
      simp only [List.append_assoc, List.singleton_append, List.cons_append, List.nil_append]
      rw [exec_all_cons]
      simp [exec]
  | some c =>
    apply balanced_of
    · intro d
      simp only [List.append_assoc, List.singleton_append, List.cons_append, List.nil_append]
      rw [exec_all_cons, sync_waits_ok_cons]
      simp only [exec]
      by_cases ha : async = 0 <;>
        simp [ha, exec_all_scan, sync_waits_ok_scan, exec_all, exec, sync_waits_ok,
          reclaim_events]
    · intro d
      simp only [List.append_assoc, List.singleton_append, List.cons_append, List.nil_append]
      rw [exec_all_cons]
      simp [exec]

/-- C20. With the session depth and the held state of `books_lock` as explicit state,
each of `add_book`, `borrow_book`, `return_book`, `is_borrowed_book`, `delete_book` and
`print_book`, on every path (success, not found, conflict, allocation failure), entered
with the lock released runs to its return and leaves the depth and the lock as they were
at entry; no path that returns leaves them changed, whatever they were at entry; and every
`synchronize_rcu()` is reached at the entry depth (the session the function opened is
closed) with `books_lock` released. -/
theorem sessions_and_lock_balanced (s : State) (id async : Int) (ok : Bool) :
    balanced (add_book_events ok) ∧
    balanced (borrow_book_events s id async ok) ∧
    balanced (return_book_events s id async ok) ∧
    balanced (is_borrowed_book_events s id) ∧
    balanced (delete_book_events s id async) ∧
    balanced (print_book_events s id) :=
  ⟨balanced_add_book ok, balanced_borrow_book s id async ok, balanced_return_book s id async ok,
   balanced_is_borrowed_book s id, balanced_delete_book s id async, balanced_print_book s id⟩

/-- C20 on a list with an available record 0: the synchronous `borrow_book(0)` and
`delete_book(0)` reach `synchronize_rcu()`, entered at depth 2 they leave at depth 2 with
the lock released, and the wait is reached at depth 2 with the lock released. -/
theorem sessions_and_lock_balanced_witness :
    Event.synchronize_rcu ∈
      borrow_book_events ⟨[⟨0, ⟨0, [49], [106], 0⟩⟩], 1, [], []⟩ 0 0 true ∧
    Event.synchronize_rcu ∈ delete_book_events ⟨[⟨0, ⟨0, [49], [106], 0⟩⟩], 1, [], []⟩ 0 0 ∧
    (exec_all ⟨2, false⟩ (borrow_book_events ⟨[⟨0, ⟨0, [49], [106], 0⟩⟩], 1, [], []⟩ 0 0 true) =
        some ⟨2, false⟩ ∧
      sync_waits_ok 2 ⟨2, false⟩
        (borrow_book_events ⟨[⟨0, ⟨0, [49], [106], 0⟩⟩], 1, [], []⟩ 0 0 true) = true) ∧
    (exec_all ⟨2, false⟩ (delete_book_events ⟨[⟨0, ⟨0, [49], [106], 0⟩⟩], 1, [], []⟩ 0 0) =
        some ⟨2, false⟩ ∧
      sync_waits_ok 2 ⟨2, false⟩
        (delete_book_events ⟨[⟨0, ⟨0, [49], [106], 0⟩⟩], 1, [], []⟩ 0 0) = true) :=
  ⟨by decide, by decide,
   (sessions_and_lock_balanced ⟨[⟨0, ⟨0, [49], [106], 0⟩⟩], 1, [], []⟩ 0 0 true).2.1.1 2,
   (sessions_and_lock_balanced ⟨[⟨0, ⟨0, [49], [106], 0⟩⟩], 1, [], []⟩ 0 0 true).2.2.2.2.1.1 2⟩

/-! ## C18: a second record with an id already on the list -/

/-- C18 as stated fails when the allocation fails: on a list holding a record with id 7,
`add_book(7, ...)` with `kzalloc` returning NULL returns without adding anything, so the
list does not grow. -/
theorem add_book_needs_memory :
    (∃ x ∈ (⟨[⟨0, ⟨7, [49], [106], 0⟩⟩], 1, [], []⟩ : State).books, x.val.id = 7) ∧
    add_book ⟨[⟨0, ⟨7, [49], [106], 0⟩⟩], 1, [], []⟩ 7 [50] [106] false =
      ⟨[⟨0, ⟨7, [49], [106], 0⟩⟩], 1, [], []⟩ ∧
    (add_book ⟨[⟨0, ⟨7, [49], [106], 0⟩⟩], 1, [], []⟩ 7 [50] [106] false).books.length ≠
      (⟨[⟨0, ⟨7, [49], [106], 0⟩⟩], 1, [], []⟩ : State).books.length + 1 := by
  decide

/-- C18, amended. On a list that already holds a record with id `i`, `add_book i name
author`, when its allocation succeeds, puts a new record with id `i` and `borrow = 0` in
front and leaves every older record on the list, unchanged and in place, so the list is
one longer and still holds an older record with id `i`. From then on the calls for `i`
act on the new record only: the lookup stops at it (`is_borrowed_book` returns 0,
`print_book` logs it); `return_book` fails on it and changes nothing; a successful
`borrow_book` replaces it alone, after which `borrow_book` fails whatever the older
records are and a successful `return_book` replaces it alone; `delete_book` removes it
alone, after which the list is the one before the `add_book`. -/
theorem duplicate_id_shadows (s : State) (i : Int) (name author : List Nat) (a1 a2 : Int)
    (ok : Bool) (hex : ∃ x ∈ s.books, x.val.id = i) :
    (add_book s i name author true).books =
      ⟨s.allocated, ⟨i, strncpy name 64, strncpy author 64, 0⟩⟩ :: s.books ∧
    (add_book s i name author true).books.length = s.books.length + 1 ∧
    (∃ x ∈ (add_book s i name author true).books.tail, x ∈ s.books ∧ x.val.id = i) ∧
    list_for_each_entry i (add_book s i name author true).books =
      some ⟨[], ⟨s.allocated, ⟨i, strncpy name 64, strncpy author 64, 0⟩⟩, s.books⟩ ∧
    is_borrowed_book (add_book s i name author true) i = 0 ∧
    print_book (add_book s i name author true) i =
      some ⟨i, strncpy name 64, strncpy author 64, 0, s.allocated⟩ ∧
    return_book (add_book s i name author true) i a1 ok =
      (-1, add_book s i name author true) ∧
    (delete_book (add_book s i name author true) i a1).books = s.books ∧
    (borrow_book (add_book s i name author true) i a1 true).1 = 0 ∧
    (borrow_book (add_book s i name author true) i a1 true).2.books =
      ⟨s.allocated + 1, ⟨i, strncpy name 64, strncpy author 64, 1⟩⟩ :: s.books ∧
    borrow_book (borrow_book (add_book s i name author true) i a1 true).2 i a2 ok =
      (-1, (borrow_book (add_book s i name author true) i a1 true).2) ∧
    (return_book (borrow_book (add_book s i name author true) i a1 true).2 i a2 true).1 = 0 ∧
    (return_book (borrow_book (add_book s i name author true) i a1 true).2 i a2 true).2.books =
      ⟨s.allocated + 2, ⟨i, strncpy name 64, strncpy author 64, 0⟩⟩ :: s.books := by
  have hb := add_book_books s i name author
  have hal : (add_book s i name author true).allocated = s.allocated + 1 := by
    simp [add_book, kzalloc]
  have hl : list_for_each_entry i (add_book s i name author true).books =
      some ⟨[], ⟨s.allocated, ⟨i, strncpy name 64, strncpy author 64, 0⟩⟩, s.books⟩ := by
    rw [hb]
    exact lfe_append [] _ s.books (by simp) rfl
  have hbor := borrow_book_books (add_book s i name author true) i a1 [] _ s.books hb
    (by simp) rfl rfl
  rw [hal] at hbor
  have hbal : (borrow_book (add_book s i name author true) i a1 true).2.allocated =
      s.allocated + 2 := by
    rw [borrow_book_done (add_book s i name author true) i a1 [] _ s.books hb (by simp) rfl rfl]
    simp [hal]
  have hret := return_book_books (borrow_book (add_book s i name author true) i a1 true).2
    i a2 [] _ s.books hbor.2 (by simp) rfl (by simp)
  rw [hbal] at hret
  obtain ⟨x, hx, hxi⟩ := hex
  refine ⟨hb, by rw [hb]; simp, ⟨x, by rw [hb]; simpa using hx, hx, hxi⟩, hl, ?_, ?_, ?_, ?_,
    hbor.1, hbor.2, ?_, hret.1, hret.2⟩
  · simp [is_borrowed_book, hl]
  · simp [print_book, hl]
  · exact return_book_conflict _ i a1 ok [] _ s.books hb (by simp) rfl rfl
  · exact delete_book_books _ i a1 [] _ s.books hb (by simp) rfl
  · exact borrow_book_conflict _ i a2 ok [] _ s.books hbor.2 (by simp) rfl (by simp)

/-- C18 (amended) on a list holding an available record with id 7: after a second
`add_book(7, ...)` and a `borrow_book(7)`, a further `borrow_book(7)` fails although the
older record with id 7 is not borrowed. -/
theorem duplicate_id_shadows_witness :
    (add_book ⟨[⟨0, ⟨7, [49], [106], 0⟩⟩], 1, [], []⟩ 7 [50] [106] true).books =
      [⟨1, ⟨7, strncpy [50] 64, strncpy [106] 64, 0⟩⟩, ⟨0, ⟨7, [49], [106], 0⟩⟩] ∧
    (borrow_book (add_book ⟨[⟨0, ⟨7, [49], [106], 0⟩⟩], 1, [], []⟩ 7 [50] [106] true)
      7 0 true).2.books =
      [⟨2, ⟨7, strncpy [50] 64, strncpy [106] 64, 1⟩⟩, ⟨0, ⟨7, [49], [106], 0⟩⟩] ∧
    borrow_book (borrow_book (add_book ⟨[⟨0, ⟨7, [49], [106], 0⟩⟩], 1, [], []⟩ 7 [50] [106]
      true) 7 0 true).2 7 1 true =
      (-1, (borrow_book (add_book ⟨[⟨0, ⟨7, [49], [106], 0⟩⟩], 1, [], []⟩ 7 [50] [106] true)
        7 0 true).2) ∧
    (delete_book (add_book ⟨[⟨0, ⟨7, [49], [106], 0⟩⟩], 1, [], []⟩ 7 [50] [106] true)
      7 0).books = [⟨0, ⟨7, [49], [106], 0⟩⟩] :=
  ⟨(duplicate_id_shadows ⟨[⟨0, ⟨7, [49], [106], 0⟩⟩], 1, [], []⟩ 7 [50] [106] 0 1 true
      ⟨⟨0, ⟨7, [49], [106], 0⟩⟩, by decide, rfl⟩).1,
   (duplicate_id_shadows ⟨[⟨0, ⟨7, [49], [106], 0⟩⟩], 1, [], []⟩ 7 [50] [106] 0 1 true
      ⟨⟨0, ⟨7, [49], [106], 0⟩⟩, by decide, rfl⟩).2.2.2.2.2.2.2.2.2.1,
   (duplicate_id_shadows ⟨[⟨0, ⟨7, [49], [106], 0⟩⟩], 1, [], []⟩ 7 [50] [106] 0 1 true
      ⟨⟨0, ⟨7, [49], [106], 0⟩⟩, by decide, rfl⟩).2.2.2.2.2.2.2.2.2.2.1,
   (duplicate_id_shadows ⟨[⟨0, ⟨7, [49], [106], 0⟩⟩], 1, [], []⟩ 7 [50] [106] 0 1 true
      ⟨⟨0, ⟨7, [49], [106], 0⟩⟩, by decide, rfl⟩).2.2.2.2.2.2.2.1⟩

/-! ## C19: the 64-byte name and author fields -/

theorem zero_not_mem_cstr (l : List Nat) : 0 ∉ cstr l := by
  intro h
  have := List.mem_takeWhile_imp h
  simp at this

theorem strncpy_field (src : List Nat) :
    strncpy src 64 =
      (cstr src).take (min (cstr src).length 64) ++
        List.replicate (64 - min (cstr src).length 64) 0 ∧
    (strncpy src 64).length = 64 ∧
    (0 ∈ strncpy src 64 ↔ (cstr src).length < 64) ∧
    (field_string (strncpy src 64) = some (cstr src) ↔ (cstr src).length < 64) ∧
    (64 ≤ (cstr src).length →
      strncpy src 64 = (cstr src).take 64 ∧ 0 ∉ strncpy src 64 ∧
      field_string (strncpy src 64) = none) := by
  have hz : 0 ∉ (cstr src).take 64 := fun h => zero_not_mem_cstr src (List.mem_of_mem_take h)
  have hmem : 0 ∈ strncpy src 64 ↔ (cstr src).length < 64 := by
    unfold strncpy
    rw [List.mem_append, List.mem_replicate, List.length_take]
    constructor
    · rintro (h | ⟨h, _⟩)
      · exact absurd h hz
      · omega
    · intro h
      exact Or.inr ⟨by omega, rfl⟩
  refine ⟨?_, strncpy_length src 64, hmem, ?_, ?_⟩
  · unfold strncpy
    rw [List.length_take]
    by_cases h : (cstr src).length ≤ 64
    · rw [Nat.min_eq_left h, Nat.min_eq_right h, List.take_of_length_le h, List.take_length]
    · have h2 : 64 ≤ (cstr src).length := by omega
      rw [Nat.min_eq_right h2, Nat.min_eq_left h2]
  · unfold field_string
    constructor
    · intro h
      by_cases hm : 0 ∈ strncpy src 64
      · exact hmem.mp hm
      · rw [if_neg hm] at h
        exact absurd h (by simp)
    · intro h
      rw [if_pos (hmem.mpr h), cstr_strncpy src 64 h]
  · intro h
    have hn : 0 ∉ strncpy src 64 := fun hm => absurd (hmem.mp hm) (by omega)
    refine ⟨?_, hn, ?_⟩
    · unfold strncpy
      rw [List.length_take, Nat.min_eq_left h]
      simp
    · unfold field_string
      rw [if_neg hn]

/-- C19. The record stored by a successful `add_book` has, as its `name` field, the
first min(length, 64) bytes of the string passed as name followed by zero bytes up to 64
bytes. The field holds a terminating zero byte if and only if the string is shorter
than 64 bytes, and reading the field back as a string gives the string passed if and
only if it is shorter than 64 bytes; a string of 64 bytes or more is cut to its first 64
bytes, stored with no terminator and with no failure reported. The same holds of the
`author` field and the string passed as author. -/
theorem add_book_fields (s : State) (id : Int) (name author : List Nat) :
    ∃ b, (add_book s id name author true).books = b :: s.books ∧
      (b.val.name =
          (cstr name).take (min (cstr name).length 64) ++
            List.replicate (64 - min (cstr name).length 64) 0 ∧
        b.val.name.length = 64 ∧
        (0 ∈ b.val.name ↔ (cstr name).length < 64) ∧
        (field_string b.val.name = some (cstr name) ↔ (cstr name).length < 64) ∧
        (64 ≤ (cstr name).length →
          b.val.name = (cstr name).take 64 ∧ 0 ∉ b.val.name ∧
          field_string b.val.name = none)) ∧
      (b.val.author =
          (cstr author).take (min (cstr author).length 64) ++
            List.replicate (64 - min (cstr author).length 64) 0 ∧
        b.val.author.length = 64 ∧
        (0 ∈ b.val.author ↔ (cstr author).length < 64) ∧
        (field_string b.val.author = some (cstr author) ↔ (cstr author).length < 64) ∧
        (64 ≤ (cstr author).length →
          b.val.author = (cstr author).take 64 ∧ 0 ∉ b.val.author ∧
          field_string b.val.author = none)) :=
  ⟨⟨s.allocated, ⟨id, strncpy name 64, strncpy author 64, 0⟩⟩,
    add_book_books s id name author, strncpy_field name, strncpy_field author⟩

/-- C19 on `add_book(0, name, "jb")` with a name of 64 bytes `a`: the name is stored
without terminator and does not read back; the author does. -/
theorem add_book_fields_witness :
    ∃ b, (add_book init 0 (List.replicate 64 97) jb true).books = b :: init.books ∧
      b.val.name = List.replicate 64 97 ∧ 0 ∉ b.val.name ∧ field_string b.val.name = none ∧
      field_string b.val.author = some jb := by
  obtain ⟨b, hb, hn, ha⟩ := add_book_fields init 0 (List.replicate 64 97) jb
  have h1 := hn.2.2.2.2 (by decide)
  have h2 := ha.2.2.2.1.mpr (by decide)
  have hc : cstr (List.replicate 64 97) = List.replicate 64 97 := by decide
  have hj : cstr jb = jb := by decide
  rw [hc] at h1
  rw [hj] at h2
  exact ⟨b, hb, by rw [h1.1]; decide, h1.2.1, h1.2.2, h2⟩

end ListRcu
